import Mathlib

/-!
# FLARE event system: EventManager.cpp

A shallow embedding of `Event` (with `getComponent` and
`deleteAllComponents`), `EventManager::loadEvent`,
`EventManager::loadEventComponent`, `EventManager::executeEvent` and
`EventManager::isActive`, and the properties of the event specification that
hold of them, with the inputs on which a property of the specification fails.

Conventions of the embedding
* C++ `int` values are `Int`; `static_cast<unsigned short>(z)` is `z % 65536`.
* `std::vector` is `List`; `v[i] = a` is `List.set`.  Grids (`Map_Layer`) are
  lists of columns, `grid[x][y]`.
* The ambient singletons (`mapr`, `camp`, `snd`, `powers`, `msg`, `mods`) are an
  explicit `World` that is threaded through `executeEvent`, and a record
  `Collab` of the read-only queries the code asks of them.
* `float` values are kept symbolic (`FVal`): the embedding records which float
  expression of the source produced a value.  The one float operation the code
  branches on, the comparison with -1 in loadEvent, is `FVal.eqNegOne`, for
  IEEE binary32 with rounding to nearest.
* The cursor `FileParser` is the sequence of delimited values not yet consumed;
  `toInt`, `toBool`, `parse_duration`, `msg->get` and `parseLoot` are parameters
  (`LoadCollab`).
-/

namespace Flare

/-! ## Data model -/

/-- The component tags that EventManager.cpp names (EVENT_COMPONENT_TYPE). -/
inductive EVENT_COMPONENT_TYPE
  | EC_NONE
  | EC_TOOLTIP
  | EC_POWER_PATH
  | EC_POWER_DAMAGE
  | EC_INTERMAP
  | EC_INTRAMAP
  | EC_MAPMOD
  | EC_SOUNDFX
  | EC_LOOT
  | EC_LOOT_COUNT
  | EC_MSG
  | EC_SHAKYCAM
  | EC_REQUIRES_STATUS
  | EC_REQUIRES_NOT_STATUS
  | EC_REQUIRES_LEVEL
  | EC_REQUIRES_NOT_LEVEL
  | EC_REQUIRES_CURRENCY
  | EC_REQUIRES_NOT_CURRENCY
  | EC_REQUIRES_ITEM
  | EC_REQUIRES_NOT_ITEM
  | EC_REQUIRES_CLASS
  | EC_REQUIRES_NOT_CLASS
  | EC_SET_STATUS
  | EC_UNSET_STATUS
  | EC_REMOVE_CURRENCY
  | EC_REMOVE_ITEM
  | EC_REWARD_XP
  | EC_REWARD_CURRENCY
  | EC_REWARD_ITEM
  | EC_RESTORE
  | EC_POWER
  | EC_SPAWN
  | EC_STASH
  | EC_NPC
  | EC_MUSIC
  | EC_CUTSCENE
  | EC_REPEAT
  | EC_SAVE_GAME
  | EC_BOOK
  | EC_NPC_ID
  deriving DecidableEq, Repr

open EVENT_COMPONENT_TYPE

/-- Modelled from the spec: the Event_Component record of EventManager.h (not
under src): a tag, one string and the integer slots x, y, z, a, b that
EventManager.cpp reads and writes. -/
structure Event_Component where
  type : EVENT_COMPONENT_TYPE
  s : String
  x : Int
  y : Int
  z : Int
  a : Int
  b : Int
  deriving DecidableEq, Repr

/-- Modelled from the spec: the value `Event_Component()` of EventManager.h (not
under src): tag none, empty string, every integer slot zero. -/
def Event_Component.new : Event_Component :=
  { type := EC_NONE, s := "", x := 0, y := 0, z := 0, a := 0, b := 0 }

/-- A `float` of the source, named by the expression that computed it. -/
inductive FVal
  /-- the literal or converted integer `static_cast<float>(i)` -/
  | ofInt (i : Int)
  /-- the tile centre `static_cast<float>(i) + 0.5f` -/
  | addHalf (i : Int)
  /-- the midpoint `static_cast<float>(a) + static_cast<float>(w)/2` -/
  | mid (a w : Int)
  deriving DecidableEq, Repr

structure FPoint where
  x : FVal
  y : FVal
  deriving DecidableEq, Repr

/-- The integer `static_cast<float>(i)` denotes, for a 32-bit `i`: `i` rounded
to 24 significant bits, ties to even. -/
def f32OfInt (i : Int) : Int :=
  let n := i.natAbs
  let e := ((List.range 9).find? (fun e => decide (n < 2 ^ (24 + e)))).getD 8
  if e = 0 then i
  else
    let q := n / 2 ^ e
    let r := n % 2 ^ e
    let half := 2 ^ (e - 1)
    let q1 := if r > half ∨ (r = half ∧ q % 2 = 1) then q + 1 else q
    if i < 0 then -((q1 * 2 ^ e : Nat) : Int) else ((q1 * 2 ^ e : Nat) : Int)

/-- The comparison `v == -1` of the source on a float.  A converted integer is
-1 only for the integer -1; a tile centre is a half-integer or far from -1; a
midpoint is a multiple of one half before its rounding, so it is -1 only when
the sum of the two converted terms is -1 exactly. -/
def FVal.eqNegOne : FVal → Bool
  | .ofInt i => decide (i = -1)
  | .addHalf _ => false
  | .mid a w => decide (2 * f32OfInt a + f32OfInt w = -2)

structure Point where
  x : Int
  y : Int
  deriving DecidableEq, Repr

structure Rect where
  x : Int
  y : Int
  w : Int
  h : Int
  deriving DecidableEq, Repr

/-- The value `Rect()`: all zero. -/
def Rect.new : Rect := { x := 0, y := 0, w := 0, h := 0 }

/-- The class Event. -/
structure Event where
  type : String
  activate_type : Int
  components : List Event_Component
  location : Rect
  hotspot : Rect
  cooldown : Int
  cooldown_ticks : Int
  keep_after_trigger : Bool
  center : FPoint
  reachable_from : Rect
  deriving DecidableEq, Repr

/-- The constructor `Event::Event()`. -/
def Event.new : Event :=
  { type := ""
    activate_type := -1
    components := []
    location := Rect.new
    hotspot := Rect.new
    cooldown := 0
    cooldown_ticks := 0
    keep_after_trigger := true
    center := { x := FVal.ofInt (-1), y := FVal.ofInt (-1) }
    reachable_from := Rect.new }

/-- Modelled from the spec: the activation constants of EventManager.h (not
under src), five distinct values for on_trigger, on_mapexit, on_leave, on_load
and on_clear, numbered from 0 in that order. -/
def EVENT_ON_TRIGGER : Int := 0

/-- Modelled from the spec: see EVENT_ON_TRIGGER. -/
def EVENT_ON_MAPEXIT : Int := 1

/-- Modelled from the spec: see EVENT_ON_TRIGGER. -/
def EVENT_ON_LEAVE : Int := 2

/-- Modelled from the spec: see EVENT_ON_TRIGGER. -/
def EVENT_ON_LOAD : Int := 3

/-- Modelled from the spec: see EVENT_ON_TRIGGER. -/
def EVENT_ON_CLEAR : Int := 4

/-- The method `Event::getComponent`: the first component with the tag, if any. -/
def Event.getComponent (ev : Event) (ty : EVENT_COMPONENT_TYPE) : Option Event_Component :=
  ev.components.find? (fun ec => decide (ec.type = ty))

/-- The loop of `Event::deleteAllComponents` from the iterator on: when the
component under the iterator has the tag, `erase` removes it and returns the
iterator to the component that followed, and the `++it` of the `for` then steps
over that one without testing it.  When the erased component was the last,
`erase` returns `end()` and `++it` moves past the end, which is undefined:
`none`. -/
def deleteFrom (ty : EVENT_COMPONENT_TYPE) : List Event_Component → Option (List Event_Component)
  | [] => some []
  | [a] => if a.type = ty then none else some [a]
  | a :: b :: rest =>
      if a.type = ty then (deleteFrom ty rest).map (fun l => b :: l)
      else (deleteFrom ty (b :: rest)).map (fun l => a :: l)

/-- The method `Event::deleteAllComponents`; `none` when the loop runs its
iterator past the end of the vector. -/
def Event.deleteAllComponents (ev : Event) (ty : EVENT_COMPONENT_TYPE) : Option Event :=
  (deleteFrom ty ev.components).map (fun l => { ev with components := l })

/-! ## External state -/

/-- A tile grid `std::vector<std::vector<unsigned short>>`, indexed `[x][y]`. -/
abbrev Map_Layer := List (List Nat)

/-- The assignment `grid[x][y] = v`. -/
def Map_Layer.write (g : Map_Layer) (x y v : Nat) : Map_Layer :=
  g.set x ((g.getD x []).set y v)

/-- The cell `grid[x][y]`, when the grid has it. -/
def Map_Layer.cell (g : Map_Layer) (x y : Nat) : Option Nat :=
  (g[x]?).bind (fun col => col[y]?)

/-- A grid of `w` columns of `h` cells each. -/
def Map_Layer.sized (g : Map_Layer) (w h : Nat) : Prop :=
  g.length = w ∧ ∀ col ∈ g, col.length = h

/-- The fields of the map renderer (`mapr`) that executeEvent reads or writes. -/
structure MapRenderer where
  w : Nat
  h : Nat
  colmap : Map_Layer
  map_change : Bool
  layernames : List String
  layers : List Map_Layer
  teleportation : Bool
  teleport_mapname : String
  teleport_destination : FPoint
  log_msg : String
  sids : List Nat
  loot : List Event_Component
  loot_count : Point
  shaky_cam_ticks : Int
  cam : FPoint
  stash : Bool
  stash_pos : FPoint
  event_npc : String
  music_filename : String
  cutscene : Bool
  cutscene_file : String
  save_game : Bool
  npc_id : Int
  show_book : String
  deriving DecidableEq, Repr

/-- A call executeEvent makes on a collaborator: the campaign (`camp`), the
sound manager (`snd`), the power manager (`powers`) or a method of `mapr`. -/
inductive Call
  | setStatus (s : String)
  | unsetStatus (s : String)
  | removeCurrency (x : Int)
  | removeItem (x : Int)
  | rewardXP (x : Int) (show_message : Bool)
  | rewardCurrency (x : Int)
  | rewardItem (item quantity : Int)
  | restoreHPMP (s : String)
  | sndLoad (s : String) (errormsg : String)
  | sndPlay (sid : Nat) (pos : FPoint) (loop : Bool)
  | spawn (s : String) (pos : Point)
  | activatePower (power_index : Int) (statblock_index : Int) (target : FPoint)
  | loadMusic
  deriving DecidableEq, Repr

/-- A diagnostic written with logError by executeEvent. -/
inductive LogEntry
  | outOfBounds (x y : Int)
  | invalidTile (x y z : Int)
  | invalidLayer (x y : Int)
  deriving DecidableEq, Repr

/-- Everything outside the event that executeEvent can change: the map
renderer, the calls made on collaborators (oldest first) and the error log. -/
structure World where
  mapr : MapRenderer
  calls : List Call
  log : List LogEntry
  deriving DecidableEq, Repr

def World.call (w : World) (k : Call) : World :=
  { w with calls := w.calls ++ [k] }

def World.logError (w : World) (e : LogEntry) : World :=
  { w with log := w.log ++ [e] }

/-- The read-only queries the code asks of code that is not under src. -/
structure Collab where
  /-- the function toBool of UtilsParsing -/
  toBool : String → Bool
  /-- the lookup `msg->get` -/
  msgGet : String → String
  /-- the test `fileExists(mods->locate(s))` -/
  fileExists : String → Bool
  /-- the predicate `mapr->isValidTile` -/
  isValidTile : Int → Bool
  /-- the sound id `snd->load` returns for a file name -/
  sndLoad : String → Nat
  /-- the check `camp->checkAllRequirements` -/
  checkAllRequirements : Event_Component → Bool

/-! ## Event execution engine -/

/-- The tile centre `(static_cast<float>(x) + 0.5f, static_cast<float>(y) + 0.5f)`. -/
def tileCenter (x y : Int) : FPoint :=
  { x := FVal.addHalf x, y := FVal.addHalf y }

/-- The test `x >= 0 && x < mapr->w && y >= 0 && y < mapr->h`. -/
def inBounds (m : MapRenderer) (x y : Int) : Bool :=
  decide (x ≥ 0) && decide (x < (m.w : Int)) && decide (y ≥ 0) && decide (y < (m.h : Int))

/-- The conversion `static_cast<unsigned short>(z)`. -/
def toUShort (z : Int) : Nat := (z % 65536).toNat

/-- The branch EC_MAPMOD of executeEvent. -/
def execMapmod (c : Collab) (ec : Event_Component) (w : World) : World :=
  if ec.s = "collision" then
    if inBounds w.mapr ec.x ec.y then
      { w with mapr := { w.mapr with
          colmap := w.mapr.colmap.write ec.x.toNat ec.y.toNat (toUShort ec.z)
          map_change := true } }
    else
      w.logError (LogEntry.outOfBounds ec.x ec.y)
  else
    let index := w.mapr.layernames.indexOf ec.s
    if !c.isValidTile ec.z then
      w.logError (LogEntry.invalidTile ec.x ec.y ec.z)
    else if index ≥ w.mapr.layers.length then
      w.logError (LogEntry.invalidLayer ec.x ec.y)
    else if inBounds w.mapr ec.x ec.y then
      { w with mapr := { w.mapr with
          layers := w.mapr.layers.set index
            ((w.mapr.layers.getD index []).write ec.x.toNat ec.y.toNat (toUShort ec.z)) } }
    else
      w.logError (LogEntry.outOfBounds ec.x ec.y)

/-- The position computed in the branch EC_SOUNDFX of executeEvent. -/
def soundPos (ev : Event) (ec : Event_Component) : FPoint :=
  if ec.x ≠ -1 ∧ ec.y ≠ -1 then
    if ec.x ≠ 0 ∧ ec.y ≠ 0 then tileCenter ec.x ec.y
    else { x := FVal.ofInt 0, y := FVal.ofInt 0 }
  else if ev.location.x ≠ 0 ∧ ev.location.y ≠ 0 then
    tileCenter ev.location.x ev.location.y
  else { x := FVal.ofInt 0, y := FVal.ofInt 0 }

/-- The target computed in the branch EC_POWER of executeEvent. -/
def powerTarget (ev : Event) (m : MapRenderer) : FPoint :=
  match ev.getComponent EC_POWER_PATH with
  | some ec_path =>
      if ec_path.s = "hero" then { x := m.cam.x, y := m.cam.y }
      else tileCenter ec_path.a ec_path.b
  | none => tileCenter ev.location.x ev.location.y

/-- The chain of tests on `ec->type` in the loop of executeEvent, for the
component `ec = &ev.components[i]`. -/
def execBranch (c : Collab) (ev : Event) (w : World) (i : Nat) (ec : Event_Component) :
    Event × World :=
  match ec.type with
  | EC_SET_STATUS => (ev, w.call (Call.setStatus ec.s))
  | EC_UNSET_STATUS => (ev, w.call (Call.unsetStatus ec.s))
  | EC_INTERMAP =>
      if c.fileExists ec.s then
        (ev, { w with mapr := { w.mapr with
                teleportation := true
                teleport_mapname := ec.s
                teleport_destination := tileCenter ec.x ec.y } })
      else
        ({ ev with keep_after_trigger := false },
         { w with mapr := { w.mapr with log_msg := c.msgGet "Unknown destination" } })
  | EC_INTRAMAP =>
      (ev, { w with mapr := { w.mapr with
              teleportation := true
              teleport_mapname := ""
              teleport_destination := tileCenter ec.x ec.y } })
  | EC_MAPMOD => (ev, execMapmod c ec w)
  | EC_SOUNDFX =>
      let pos := soundPos ev ec
      let loop := decide (ev.activate_type = EVENT_ON_LOAD) || decide (ec.z ≠ 0)
      let sid := c.sndLoad ec.s
      let w1 := w.call (Call.sndLoad ec.s "MapRenderer background soundfx")
      let w2 := w1.call (Call.sndPlay sid pos loop)
      (ev, { w2 with mapr := { w2.mapr with sids := w2.mapr.sids ++ [sid] } })
  | EC_LOOT =>
      let loot_count : Point :=
        match ev.getComponent EC_LOOT_COUNT with
        | some ec_lootcount => { x := ec_lootcount.x, y := ec_lootcount.y }
        | none => { x := 0, y := 0 }
      let ec1 := { ec with x := ev.hotspot.x, y := ev.hotspot.y }
      ({ ev with components := ev.components.set i ec1 },
       { w with mapr := { w.mapr with
           loot_count := loot_count
           loot := w.mapr.loot ++ [ec1] } })
  | EC_MSG => (ev, { w with mapr := { w.mapr with log_msg := ec.s } })
  | EC_SHAKYCAM => (ev, { w with mapr := { w.mapr with shaky_cam_ticks := ec.x } })
  | EC_REMOVE_CURRENCY => (ev, w.call (Call.removeCurrency ec.x))
  | EC_REMOVE_ITEM => (ev, w.call (Call.removeItem ec.x))
  | EC_REWARD_XP => (ev, w.call (Call.rewardXP ec.x true))
  | EC_REWARD_CURRENCY => (ev, w.call (Call.rewardCurrency ec.x))
  | EC_REWARD_ITEM => (ev, w.call (Call.rewardItem ec.x ec.y))
  | EC_RESTORE => (ev, w.call (Call.restoreHPMP ec.s))
  | EC_SPAWN => (ev, w.call (Call.spawn ec.s { x := ec.x, y := ec.y }))
  | EC_POWER =>
      (ev, w.call (Call.activatePower ec.x ec.y (powerTarget ev w.mapr)))
  | EC_STASH =>
      let stash := c.toBool ec.s
      (ev, { w with mapr := { w.mapr with
              stash := stash
              stash_pos := if stash then tileCenter ev.location.x ev.location.y
                           else w.mapr.stash_pos } })
  | EC_NPC => (ev, { w with mapr := { w.mapr with event_npc := ec.s } })
  | EC_MUSIC =>
      let w1 : World := { w with mapr := { w.mapr with music_filename := ec.s } }
      (ev, w1.call Call.loadMusic)
  | EC_CUTSCENE =>
      (ev, { w with mapr := { w.mapr with cutscene := true, cutscene_file := ec.s } })
  | EC_REPEAT => ({ ev with keep_after_trigger := c.toBool ec.s }, w)
  | EC_SAVE_GAME => (ev, { w with mapr := { w.mapr with save_game := c.toBool ec.s } })
  | EC_NPC_ID => (ev, { w with mapr := { w.mapr with npc_id := ec.x } })
  | EC_BOOK => (ev, { w with mapr := { w.mapr with show_book := ec.s } })
  | _ => (ev, w)

/-- The body of the loop of executeEvent for index `i`. -/
def execComponent (c : Collab) (st : Event × World) (i : Nat) : Event × World :=
  match st.1.components[i]? with
  | none => st
  | some ec => execBranch c st.1 st.2 i ec

/-- The loop of executeEvent run for the indices below `k`. -/
def execUpTo (c : Collab) (k : Nat) (st : Event × World) : Event × World :=
  (List.range k).foldl (execComponent c) st

/-- The method `EventManager::executeEvent`: the returned flag, the event and
the world after the call.  The loop bound `ev.components.size()` is the length
at entry, since no branch of the body changes the size of the vector. -/
def executeEvent (c : Collab) (ev : Event) (w : World) : Bool × Event × World :=
  if ev.cooldown_ticks > 0 then (false, ev, w)
  else
    let ev0 := { ev with cooldown_ticks := ev.cooldown }
    let st := execUpTo c ev0.components.length (ev0, w)
    (!st.1.keep_after_trigger, st.1, st.2)

/-- The loop of isActive over the components not yet checked. -/
def isActiveFrom (c : Collab) : List Event_Component → Bool
  | [] => true
  | ec :: rest => if !c.checkAllRequirements ec then false else isActiveFrom c rest

/-- The method `EventManager::isActive`. -/
def isActive (c : Collab) (e : Event) : Bool :=
  isActiveFrom c e.components

/-! ## Event definition loader -/

/-- Modelled from the spec: the config cursor FileParser (not under src):
the key of the current line, the delimited values not yet consumed, and the
errors reported through it. -/
structure FileParser where
  key : String
  vals : List String
  errors : List String
  deriving DecidableEq, Repr

/-- Modelled from the spec: `infile.val`, the part of the value not yet
consumed, its fields separated by commas. -/
def FileParser.val (f : FileParser) : String := String.intercalate "," f.vals

/-- Modelled from the spec: `infile.nextValue()`, the next delimited value, or
the empty string once the values are used up. -/
def FileParser.nextValue (f : FileParser) : String × FileParser :=
  match f.vals with
  | [] => ("", f)
  | v :: rest => (v, { f with vals := rest })

/-- Modelled from the spec: `infile.error(...)`, a non-fatal diagnostic. -/
def FileParser.error (f : FileParser) (msg : String) : FileParser :=
  { f with errors := f.errors ++ [msg] }

/-- Modelled from the spec: clampFloor of UtilsMath.h (not under src), which
floors a value: the larger of the value and the floor. -/
def clampFloor (value floor : Int) : Int := if value < floor then floor else value

/-- The queries of the loader on code that is not under src. -/
structure LoadCollab where
  /-- the function toInt of UtilsParsing -/
  toInt : String → Int
  /-- the function toBool of UtilsParsing -/
  toBool : String → Bool
  /-- the function parse_duration of UtilsParsing -/
  parse_duration : String → Int
  /-- the lookup `msg->get` -/
  msgGet : String → String
  /-- the call `loot->parseLoot(infile, e, ec_list)`: the cursor it leaves, the
  component `e` as it fills it, and the components it pushes on the list -/
  parseLoot : FileParser → Event_Component → FileParser × Event_Component × List Event_Component

/-- The loop `while (repeat_val != "")` of the keys that repeat a single
value: one fresh component per value, filled by `fill`, up to the first empty
value or the end of the values.  Returns the components pushed and the values
left. -/
def repeatOne (fill : String → Event_Component) :
    List String → List Event_Component × List String
  | [] => ([], [])
  | repeat_val :: rest =>
      if repeat_val = "" then ([], rest)
      else
        let r := repeatOne fill rest
        (fill repeat_val :: r.1, r.2)

/-- The component a repeated mapmod tuple fills. -/
def mapmodComponent (c : LoadCollab) (s x y z : String) : Event_Component :=
  { Event_Component.new with
    type := EC_MAPMOD, s := s, x := c.toInt x, y := c.toInt y, z := c.toInt z }

/-- The loop `while (repeat_val != "")` of the key mapmod: each round reads
three more values with nextValue, which yields the empty string once the
values are used up. -/
def repeatMapmod (c : LoadCollab) : List String → List Event_Component × List String
  | [] => ([], [])
  | [s] => if s = "" then ([], []) else ([mapmodComponent c s "" "" ""], [])
  | [s, x] => if s = "" then ([], [x]) else ([mapmodComponent c s x "" ""], [])
  | [s, x, y] => if s = "" then ([], [x, y]) else ([mapmodComponent c s x y ""], [])
  | s :: x :: y :: z :: rest =>
      if s = "" then ([], x :: y :: z :: rest)
      else
        let r := repeatMapmod c rest
        (mapmodComponent c s x y z :: r.1, r.2)

/-- The component a repeated spawn tuple fills. -/
def spawnComponent (c : LoadCollab) (s x y : String) : Event_Component :=
  { Event_Component.new with type := EC_SPAWN, s := s, x := c.toInt x, y := c.toInt y }

/-- The loop `while (repeat_val != "")` of the key spawn. -/
def repeatSpawn (c : LoadCollab) : List String → List Event_Component × List String
  | [] => ([], [])
  | [s] => if s = "" then ([], []) else ([spawnComponent c s "" ""], [])
  | [s, x] => if s = "" then ([], [x]) else ([spawnComponent c s x ""], [])
  | s :: x :: y :: rest =>
      if s = "" then ([], x :: y :: rest)
      else
        let r := repeatSpawn c rest
        (spawnComponent c s x y :: r.1, r.2)

/-- What the chain of key tests of loadEventComponent leaves: the cursor, the
component `e` pointed to at entry, and the components pushed after it. -/
structure Parsed where
  infile : FileParser
  e : Event_Component
  more : List Event_Component
  deriving DecidableEq, Repr

/-- A key that reads one value into `e` and, on an event target, repeats. -/
def parseRepeating (evnt : Bool) (infile : FileParser) (first : String → Event_Component)
    (fill : String → Event_Component) : Parsed :=
  let r := infile.nextValue
  if evnt then
    let rep := repeatOne fill r.2.vals
    { infile := { r.2 with vals := rep.2 }, e := first r.1, more := rep.1 }
  else
    { infile := r.2, e := first r.1, more := [] }

/-- The chain of tests on `infile.key` in loadEventComponent, after
`e->type = EC_NONE`.  `evnt` tells whether the target is an event. -/
def parseComponent (c : LoadCollab) (evnt : Bool) (infile : FileParser)
    (e0 : Event_Component) : Parsed :=
  let e := { e0 with type := EC_NONE }
  if infile.key = "tooltip" then
    { infile := infile, e := { e with type := EC_TOOLTIP, s := c.msgGet infile.val }, more := [] }
  else if infile.key = "power_path" then
    let r1 := infile.nextValue
    let r2 := r1.2.nextValue
    let r3 := r2.2.nextValue
    let e1 := { e with type := EC_POWER_PATH, x := c.toInt r1.1, y := c.toInt r2.1 }
    if r3.1 = "hero" then
      { infile := r3.2, e := { e1 with s := "hero" }, more := [] }
    else
      let r4 := r3.2.nextValue
      { infile := r4.2, e := { e1 with a := c.toInt r3.1, b := c.toInt r4.1 }, more := [] }
  else if infile.key = "power_damage" then
    let r1 := infile.nextValue
    let r2 := r1.2.nextValue
    { infile := r2.2
      e := { e with type := EC_POWER_DAMAGE, a := c.toInt r1.1, b := c.toInt r2.1 }
      more := [] }
  else if infile.key = "intermap" then
    let r1 := infile.nextValue
    let r2 := r1.2.nextValue
    let r3 := r2.2.nextValue
    { infile := r3.2
      e := { e with type := EC_INTERMAP, s := r1.1, x := c.toInt r2.1, y := c.toInt r3.1 }
      more := [] }
  else if infile.key = "intramap" then
    let r1 := infile.nextValue
    let r2 := r1.2.nextValue
    { infile := r2.2
      e := { e with type := EC_INTRAMAP, x := c.toInt r1.1, y := c.toInt r2.1 }
      more := [] }
  else if infile.key = "mapmod" then
    let r1 := infile.nextValue
    let r2 := r1.2.nextValue
    let r3 := r2.2.nextValue
    let r4 := r3.2.nextValue
    let e1 := { e with
      type := EC_MAPMOD, s := r1.1, x := c.toInt r2.1, y := c.toInt r3.1, z := c.toInt r4.1 }
    if evnt then
      let rep := repeatMapmod c r4.2.vals
      { infile := { r4.2 with vals := rep.2 }, e := e1, more := rep.1 }
    else
      { infile := r4.2, e := e1, more := [] }
  else if infile.key = "soundfx" then
    let r1 := infile.nextValue
    let r2 := r1.2.nextValue
    let r3 := r2.2.nextValue
    let r4 := r3.2.nextValue
    { infile := r4.2
      e := { e with
        type := EC_SOUNDFX
        s := r1.1
        x := if r2.1 ≠ "" then c.toInt r2.1 else -1
        y := if r3.1 ≠ "" then c.toInt r3.1 else -1
        z := if r4.1 ≠ "" then (if c.toBool r4.1 then 1 else 0) else 0 }
      more := [] }
  else if infile.key = "loot" then
    let r := c.parseLoot infile { e with type := EC_LOOT }
    { infile := r.1, e := r.2.1, more := if evnt then r.2.2 else [] }
  else if infile.key = "loot_count" then
    let r1 := infile.nextValue
    let r2 := r1.2.nextValue
    let x := c.toInt r1.1
    let y := c.toInt r2.1
    if x ≠ 0 ∨ y ≠ 0 then
      let x1 := clampFloor x 1
      { infile := r2.2
        e := { e with type := EC_LOOT_COUNT, x := x1, y := clampFloor y x1 }
        more := [] }
    else
      { infile := r2.2, e := { e with type := EC_LOOT_COUNT, x := x, y := y }, more := [] }
  else if infile.key = "msg" then
    { infile := infile, e := { e with type := EC_MSG, s := c.msgGet infile.val }, more := [] }
  else if infile.key = "shakycam" then
    { infile := infile
      e := { e with type := EC_SHAKYCAM, x := c.parse_duration infile.val }
      more := [] }
  else if infile.key = "requires_status" then
    parseRepeating evnt infile (fun v => { e with type := EC_REQUIRES_STATUS, s := v })
      (fun v => { Event_Component.new with type := EC_REQUIRES_STATUS, s := v })
  else if infile.key = "requires_not_status" then
    parseRepeating evnt infile (fun v => { e with type := EC_REQUIRES_NOT_STATUS, s := v })
      (fun v => { Event_Component.new with type := EC_REQUIRES_NOT_STATUS, s := v })
  else if infile.key = "requires_level" then
    let r1 := infile.nextValue
    { infile := r1.2, e := { e with type := EC_REQUIRES_LEVEL, x := c.toInt r1.1 }, more := [] }
  else if infile.key = "requires_not_level" then
    let r1 := infile.nextValue
    { infile := r1.2
      e := { e with type := EC_REQUIRES_NOT_LEVEL, x := c.toInt r1.1 }
      more := [] }
  else if infile.key = "requires_currency" then
    let r1 := infile.nextValue
    { infile := r1.2
      e := { e with type := EC_REQUIRES_CURRENCY, x := c.toInt r1.1 }
      more := [] }
  else if infile.key = "requires_not_currency" then
    let r1 := infile.nextValue
    { infile := r1.2
      e := { e with type := EC_REQUIRES_NOT_CURRENCY, x := c.toInt r1.1 }
      more := [] }
  else if infile.key = "requires_item" then
    parseRepeating evnt infile (fun v => { e with type := EC_REQUIRES_ITEM, x := c.toInt v })
      (fun v => { Event_Component.new with type := EC_REQUIRES_ITEM, x := c.toInt v })
  else if infile.key = "requires_not_item" then
    parseRepeating evnt infile (fun v => { e with type := EC_REQUIRES_NOT_ITEM, x := c.toInt v })
      (fun v => { Event_Component.new with type := EC_REQUIRES_NOT_ITEM, x := c.toInt v })
  else if infile.key = "requires_class" then
    let r1 := infile.nextValue
    { infile := r1.2, e := { e with type := EC_REQUIRES_CLASS, s := r1.1 }, more := [] }
  else if infile.key = "requires_not_class" then
    let r1 := infile.nextValue
    { infile := r1.2, e := { e with type := EC_REQUIRES_NOT_CLASS, s := r1.1 }, more := [] }
  else if infile.key = "set_status" then
    parseRepeating evnt infile (fun v => { e with type := EC_SET_STATUS, s := v })
      (fun v => { Event_Component.new with type := EC_SET_STATUS, s := v })
  else if infile.key = "unset_status" then
    parseRepeating evnt infile (fun v => { e with type := EC_UNSET_STATUS, s := v })
      (fun v => { Event_Component.new with type := EC_UNSET_STATUS, s := v })
  else if infile.key = "remove_currency" then
    { infile := infile
      e := { e with type := EC_REMOVE_CURRENCY, x := clampFloor (c.toInt infile.val) 0 }
      more := [] }
  else if infile.key = "remove_item" then
    parseRepeating evnt infile (fun v => { e with type := EC_REMOVE_ITEM, x := c.toInt v })
      (fun v => { Event_Component.new with type := EC_REMOVE_ITEM, x := c.toInt v })
  else if infile.key = "reward_xp" then
    { infile := infile
      e := { e with type := EC_REWARD_XP, x := clampFloor (c.toInt infile.val) 0 }
      more := [] }
  else if infile.key = "reward_currency" then
    { infile := infile
      e := { e with type := EC_REWARD_CURRENCY, x := clampFloor (c.toInt infile.val) 0 }
      more := [] }
  else if infile.key = "reward_item" then
    let r1 := infile.nextValue
    { infile := r1.2
      e := { e with
        type := EC_REWARD_ITEM, x := c.toInt r1.1, y := clampFloor (c.toInt r1.2.val) 0 }
      more := [] }
  else if infile.key = "restore" then
    { infile := infile, e := { e with type := EC_RESTORE, s := infile.val }, more := [] }
  else if infile.key = "power" then
    { infile := infile, e := { e with type := EC_POWER, x := c.toInt infile.val }, more := [] }
  else if infile.key = "spawn" then
    let r1 := infile.nextValue
    let r2 := r1.2.nextValue
    let r3 := r2.2.nextValue
    let e1 := { e with type := EC_SPAWN, s := r1.1, x := c.toInt r2.1, y := c.toInt r3.1 }
    if evnt then
      let rep := repeatSpawn c r3.2.vals
      { infile := { r3.2 with vals := rep.2 }, e := e1, more := rep.1 }
    else
      { infile := r3.2, e := e1, more := [] }
  else if infile.key = "stash" then
    { infile := infile, e := { e with type := EC_STASH, s := infile.val }, more := [] }
  else if infile.key = "npc" then
    { infile := infile, e := { e with type := EC_NPC, s := infile.val }, more := [] }
  else if infile.key = "music" then
    { infile := infile, e := { e with type := EC_MUSIC, s := infile.val }, more := [] }
  else if infile.key = "cutscene" then
    { infile := infile, e := { e with type := EC_CUTSCENE, s := infile.val }, more := [] }
  else if infile.key = "repeat" then
    { infile := infile, e := { e with type := EC_REPEAT, s := infile.val }, more := [] }
  else if infile.key = "save_game" then
    { infile := infile, e := { e with type := EC_SAVE_GAME, s := infile.val }, more := [] }
  else if infile.key = "book" then
    { infile := infile, e := { e with type := EC_BOOK, s := infile.val }, more := [] }
  else
    { infile := infile.error ("EventManager: '" ++ infile.key ++ "' is not a valid key.")
      e := e
      more := [] }

/-- The method `EventManager::loadEventComponent`.  With an event target a
fresh component is pushed on the event and filled, and repeating keys push
more; with a component target (`evnt` null) that component is filled in place;
with neither the call returns at once.  On a component target the components
parseLoot would push have no list to go to and are left out. -/
def loadEventComponent (c : LoadCollab) (infile : FileParser) (evnt : Option Event)
    (ec : Option Event_Component) : FileParser × Option Event × Option Event_Component :=
  match evnt, ec with
  | some ev, _ =>
      let r := parseComponent c true infile Event_Component.new
      (r.infile, some { ev with components := ev.components ++ r.e :: r.more }, ec)
  | none, some e0 =>
      let r := parseComponent c false infile e0
      (r.infile, none, some r.e)
  | none, none => (infile, none, none)

/-- The centre `(x + w/2, y + h/2)` of a rectangle, as loadEvent computes it. -/
def rectCenter (r : Rect) : FPoint :=
  { x := FVal.mid r.x r.w, y := FVal.mid r.y r.h }

/-- The four values `x, y, w, h` read with nextValue, and the cursor after. -/
def readRect (c : LoadCollab) (infile : FileParser) : Rect × FileParser :=
  let r1 := infile.nextValue
  let r2 := r1.2.nextValue
  let r3 := r2.2.nextValue
  let r4 := r3.2.nextValue
  ({ x := c.toInt r1.1, y := c.toInt r2.1, w := c.toInt r3.1, h := c.toInt r4.1 }, r4.2)

/-- The method `EventManager::loadEvent`; a null `evnt` returns at once. -/
def loadEvent (c : LoadCollab) (infile : FileParser) (evnt : Option Event) :
    FileParser × Option Event :=
  match evnt with
  | none => (infile, none)
  | some ev =>
    if infile.key = "type" then
      (infile, some { ev with type := infile.val })
    else if infile.key = "activate" then
      if infile.val = "on_trigger" then
        (infile, some { ev with activate_type := EVENT_ON_TRIGGER })
      else if infile.val = "on_mapexit" then
        (infile, some { ev with activate_type := EVENT_ON_MAPEXIT })
      else if infile.val = "on_leave" then
        (infile, some { ev with activate_type := EVENT_ON_LEAVE })
      else if infile.val = "on_load" then
        (infile, some { ev with activate_type := EVENT_ON_LOAD, keep_after_trigger := false })
      else if infile.val = "on_clear" then
        (infile, some { ev with activate_type := EVENT_ON_CLEAR, keep_after_trigger := false })
      else
        (infile.error ("EventManager: Event activation type '" ++ infile.val ++
            "' unknown, change to \"on_trigger\" to suppress this warning."),
          some ev)
    else if infile.key = "location" then
      let r := readRect c infile
      let ev1 := { ev with location := r.1 }
      if ev1.center.x.eqNegOne && ev1.center.y.eqNegOne then
        (r.2, some { ev1 with center := rectCenter r.1 })
      else
        (r.2, some ev1)
    else if infile.key = "hotspot" then
      if infile.val = "location" then
        (infile, some { ev with hotspot := ev.location, center := rectCenter ev.location })
      else
        let r := readRect c infile
        (r.2, some { ev with hotspot := r.1, center := rectCenter r.1 })
    else if infile.key = "cooldown" then
      (infile, some { ev with cooldown := c.parse_duration infile.val })
    else if infile.key = "reachable_from" then
      let r := readRect c infile
      (r.2, some { ev with reachable_from := r.1 })
    else
      let r := loadEventComponent c infile (some ev) none
      (r.1, r.2.1)

/-! ## Sample inputs -/

/-- A collaborator record for the worked examples. -/
def sampleCollab : Collab :=
  { toBool := fun s => decide (s = "true") || decide (s = "1")
    msgGet := fun s => s
    fileExists := fun s => decide (s = "maps/town.txt")
    isValidTile := fun z => decide (0 ≤ z) && decide (z < 16)
    sndLoad := fun s => s.length
    checkAllRequirements := fun ec =>
      if ec.type = EC_REQUIRES_LEVEL then decide (ec.x ≤ 6) else true }

/-- Decimal digits read from the left, for the worked examples; stops at the
first character that is not a digit. -/
def readDigits : List Char → Nat → Nat
  | [], acc => acc
  | ch :: rest, acc =>
      if ch.isDigit then readDigits rest (acc * 10 + (ch.toNat - 48)) else acc

/-- An integer reader for the worked examples: an optional minus sign and
decimal digits, 0 when there are none. -/
def sampleToInt (s : String) : Int :=
  match s.data with
  | '-' :: ds => -((readDigits ds 0 : Nat) : Int)
  | ds => ((readDigits ds 0 : Nat) : Int)

/-- A loader collaborator record for the worked examples. -/
def sampleLoad : LoadCollab :=
  { toInt := sampleToInt
    toBool := fun s => decide (s = "true") || decide (s = "1")
    parse_duration := sampleToInt
    msgGet := fun s => s
    parseLoot := fun f e => ({ f with vals := [] }, { e with s := f.val }, []) }

/-- A 2 by 2 map with three tile layers, one of them named like the collision grid. -/
def sampleMap : MapRenderer :=
  { w := 2
    h := 2
    colmap := [[0, 0], [0, 0]]
    map_change := false
    layernames := ["background", "object", "collision"]
    layers := [[[1, 1], [1, 1]], [[0, 0], [0, 0]], [[7, 7], [7, 7]]]
    teleportation := false
    teleport_mapname := ""
    teleport_destination := { x := FVal.ofInt 0, y := FVal.ofInt 0 }
    log_msg := ""
    sids := []
    loot := []
    loot_count := { x := 0, y := 0 }
    shaky_cam_ticks := 0
    cam := { x := FVal.ofInt 0, y := FVal.ofInt 0 }
    stash := false
    stash_pos := { x := FVal.ofInt 0, y := FVal.ofInt 0 }
    event_npc := ""
    music_filename := ""
    cutscene := false
    cutscene_file := ""
    save_game := false
    npc_id := 0
    show_book := "" }

def sampleWorld : World := { mapr := sampleMap, calls := [], log := [] }

/-- An event on cooldown holding a tile mutation, a reward and a repeat flag. -/
def coolingEvent : Event :=
  { Event.new with
    cooldown := 30
    cooldown_ticks := 5
    components :=
      [ { Event_Component.new with type := EC_MAPMOD, s := "collision", x := 1, y := 1, z := 3 },
        { Event_Component.new with type := EC_REWARD_XP, x := 100 },
        { Event_Component.new with type := EC_REPEAT, s := "false" } ] }

/-- The same event once its cooldown has run out. -/
def readyEvent : Event := { coolingEvent with cooldown_ticks := 0 }

/-- An event with a reward and a message, and neither repeat nor teleport. -/
def plainEvent : Event :=
  { Event.new with
    cooldown := 12
    keep_after_trigger := false
    components :=
      [ { Event_Component.new with type := EC_REWARD_XP, x := 100 },
        { Event_Component.new with type := EC_MSG, s := "hello" } ] }

/-! ## Notions used in the statements -/

/-- The component a loot branch stores back: the hotspot stamped on x and y. -/
def stamped (ev : Event) (ec : Event_Component) : Event_Component :=
  if ec.type = EC_LOOT then { ec with x := ev.hotspot.x, y := ev.hotspot.y } else ec

/-- The cell `layers[l][x][y]`, when the layer and the cell exist. -/
def cellOf (layers : List Map_Layer) (l x y : Nat) : Option Nat :=
  (layers[l]?).bind (fun g => g.cell x y)

/-- The grids of a loaded map have its dimensions: the collision grid and
every tile layer are `w` columns of `h` cells. -/
def MapRenderer.sized (m : MapRenderer) : Prop :=
  m.colmap.sized m.w m.h ∧ ∀ g ∈ m.layers, Map_Layer.sized g m.w m.h

/-- The state executeEvent has reached when the iterations below `k` have run. -/
def execState (c : Collab) (ev : Event) (w : World) (k : Nat) : Event × World :=
  execUpTo c k ({ ev with cooldown_ticks := ev.cooldown }, w)

/-- The tile mutation `ec` takes one of the logError paths of the EC_MAPMOD
branch on the map `m`: position out of bounds, invalid tile id, or a layer
index that is not below the number of layers. -/
def mapmodFails (c : Collab) (m : MapRenderer) (ec : Event_Component) : Bool :=
  if ec.s = "collision" then !inBounds m ec.x ec.y
  else
    !c.isValidTile ec.z || decide (m.layernames.indexOf ec.s ≥ m.layers.length) ||
      !inBounds m ec.x ec.y

/-- Two runs that differ only by the component `bad` at index `n` of the first:
the events agree outside the component list, the lists agree once `bad` is
taken out, and the maps and collaborator calls agree (the logs may differ). -/
def SkipRel (bad : Event_Component) (n : Nat) (A B : Event × World) : Prop :=
  ∃ p q : List Event_Component, p.length = n ∧
    A.1.components = p ++ bad :: q ∧ B.1.components = p ++ q ∧
    A.1 = { B.1 with components := A.1.components } ∧
    A.2.mapr = B.2.mapr ∧ A.2.calls = B.2.calls

/-- An event with one tile mutation on a named layer, inside the map. -/
def layerEvent : Event :=
  { Event.new with
    components :=
      [ { Event_Component.new with type := EC_MAPMOD, s := "object", x := 0, y := 1, z := 5 } ] }

/-- A tile mutation outside the 2 by 2 sample map. -/
def outsideMapmod : Event_Component :=
  { Event_Component.new with type := EC_MAPMOD, s := "collision", x := 5, y := 5, z := 1 }

/-- An event whose second component is a tile mutation outside the map. -/
def faultyEvent : Event :=
  { Event.new with
    hotspot := { x := 4, y := 6, w := 1, h := 1 }
    components :=
      [ { Event_Component.new with type := EC_REWARD_XP, x := 100 },
        outsideMapmod,
        { Event_Component.new with type := EC_LOOT, s := "loot/chest.txt" },
        { Event_Component.new with type := EC_REPEAT, s := "false" } ] }

/-- The keys the specification lists as variadic. -/
inductive VariadicKey
  | mapmod
  | spawn
  | requires_status
  | requires_not_status
  | set_status
  | unset_status
  | requires_item
  | requires_not_item
  | remove_item
  deriving DecidableEq, Repr

/-- The key as written in an event block. -/
def VariadicKey.name : VariadicKey → String
  | .mapmod => "mapmod"
  | .spawn => "spawn"
  | .requires_status => "requires_status"
  | .requires_not_status => "requires_not_status"
  | .set_status => "set_status"
  | .unset_status => "unset_status"
  | .requires_item => "requires_item"
  | .requires_not_item => "requires_not_item"
  | .remove_item => "remove_item"

/-- The tag the specification gives the components of a variadic key. -/
def VariadicKey.tag : VariadicKey → EVENT_COMPONENT_TYPE
  | .mapmod => EC_MAPMOD
  | .spawn => EC_SPAWN
  | .requires_status => EC_REQUIRES_STATUS
  | .requires_not_status => EC_REQUIRES_NOT_STATUS
  | .set_status => EC_SET_STATUS
  | .unset_status => EC_UNSET_STATUS
  | .requires_item => EC_REQUIRES_ITEM
  | .requires_not_item => EC_REQUIRES_NOT_ITEM
  | .remove_item => EC_REMOVE_ITEM

/-- The number of fields of one tuple of a variadic key. -/
def VariadicKey.arity : VariadicKey → Nat
  | .mapmod => 4
  | .spawn => 3
  | _ => 1

/-- The component the specification expects for one tuple of a variadic key:
the key's tag and the tuple's fields (layer, x, y, z for mapmod; category, x, y
for spawn; one string for the status keys; one integer for the item keys),
every other slot as in a fresh component. -/
def VariadicKey.component (toInt : String → Int) (k : VariadicKey) (t : List String) :
    Event_Component :=
  match k with
  | .mapmod =>
      { Event_Component.new with
        type := EC_MAPMOD, s := t.getD 0 "", x := toInt (t.getD 1 ""), y := toInt (t.getD 2 ""),
        z := toInt (t.getD 3 "") }
  | .spawn =>
      { Event_Component.new with
        type := EC_SPAWN, s := t.getD 0 "", x := toInt (t.getD 1 ""), y := toInt (t.getD 2 "") }
  | .requires_item | .requires_not_item | .remove_item =>
      { Event_Component.new with type := k.tag, x := toInt (t.getD 0 "") }
  | _ => { Event_Component.new with type := k.tag, s := t.getD 0 "" }

/-- A complete tuple of a variadic key whose leading field is not empty. -/
def VariadicKey.wellFormed (k : VariadicKey) (t : List String) : Prop :=
  t.length = k.arity ∧ t.head? ≠ some ""

instance (k : VariadicKey) (t : List String) : Decidable (k.wellFormed t) := by
  unfold VariadicKey.wellFormed; infer_instance

/-- A component with its payload blanked when it is a loot component. -/
def lootless (ec : Event_Component) : Event_Component :=
  if ec.type = EC_LOOT then { Event_Component.new with type := EC_LOOT } else ec

/-- An event with a resolvable inter-map teleport, an unresolvable one and an
intra-map teleport (the sample mod has the file maps/town.txt only). -/
def teleportEvent : Event :=
  { Event.new with
    components :=
      [ { Event_Component.new with type := EC_INTERMAP, s := "maps/town.txt", x := 3, y := 4 },
        { Event_Component.new with type := EC_INTERMAP, s := "maps/missing.txt", x := 1, y := 1 },
        { Event_Component.new with type := EC_INTRAMAP, x := 7, y := 8 } ] }

/-- An unresolvable inter-map teleport followed by a repeat flag set to true. -/
def rearmedEvent : Event :=
  { Event.new with
    components :=
      [ { Event_Component.new with type := EC_INTERMAP, s := "maps/missing.txt", x := 1, y := 1 },
        { Event_Component.new with type := EC_REPEAT, s := "true" } ] }

/-- A sequence of lines of one event block loaded in order with loadEvent, each
line given as the cursor positioned on it. -/
def loadEvents (c : LoadCollab) (lines : List FileParser) (evnt : Option Event) :
    Option Event :=
  lines.foldl (fun e infile => (loadEvent c infile e).2) evnt

/-- An on_load event whose block goes on with a reward and a repeat key. -/
def onLoadLines : List FileParser :=
  [ { key := "activate", vals := ["on_load"], errors := [] },
    { key := "reward_xp", vals := ["100"], errors := [] },
    { key := "activate", vals := ["on_trigger"], errors := [] },
    { key := "repeat", vals := ["true"], errors := [] } ]

/-- An event that ends with a repeat flag, after an unresolvable teleport. -/
def repeatLastEvent : Event :=
  { Event.new with
    keep_after_trigger := false
    components :=
      [ { Event_Component.new with type := EC_INTERMAP, s := "maps/missing.txt", x := 1, y := 1 },
        { Event_Component.new with type := EC_REPEAT, s := "true" } ] }

/-- The calls made on the campaign (`camp`). -/
def isCampaign : Call → Bool
  | .setStatus _ => true
  | .unsetStatus _ => true
  | .removeCurrency _ => true
  | .removeItem _ => true
  | .rewardXP _ _ => true
  | .rewardCurrency _ => true
  | .rewardItem _ _ => true
  | .restoreHPMP _ => true
  | _ => false

/-- The campaign call the specification expects of a component: one call with
the component's payload for the eight pass-through kinds, none otherwise. -/
def campCall (ec : Event_Component) : Option Call :=
  match ec.type with
  | EC_SET_STATUS => some (Call.setStatus ec.s)
  | EC_UNSET_STATUS => some (Call.unsetStatus ec.s)
  | EC_REMOVE_CURRENCY => some (Call.removeCurrency ec.x)
  | EC_REMOVE_ITEM => some (Call.removeItem ec.x)
  | EC_REWARD_XP => some (Call.rewardXP ec.x true)
  | EC_REWARD_CURRENCY => some (Call.rewardCurrency ec.x)
  | EC_REWARD_ITEM => some (Call.rewardItem ec.x ec.y)
  | EC_RESTORE => some (Call.restoreHPMP ec.s)
  | _ => none

/-- The kinds the specification calls inert during execution: the requirement
kinds, tooltip, power_path, power_damage, loot_count and none. -/
def inertKind : EVENT_COMPONENT_TYPE → Bool
  | EC_NONE => true
  | EC_TOOLTIP => true
  | EC_POWER_PATH => true
  | EC_POWER_DAMAGE => true
  | EC_LOOT_COUNT => true
  | EC_REQUIRES_STATUS => true
  | EC_REQUIRES_NOT_STATUS => true
  | EC_REQUIRES_LEVEL => true
  | EC_REQUIRES_NOT_LEVEL => true
  | EC_REQUIRES_CURRENCY => true
  | EC_REQUIRES_NOT_CURRENCY => true
  | EC_REQUIRES_ITEM => true
  | EC_REQUIRES_NOT_ITEM => true
  | EC_REQUIRES_CLASS => true
  | EC_REQUIRES_NOT_CLASS => true
  | _ => false

/-- The end-to-end example of the specification: two requirements and a reward. -/
def bossEvent : Event :=
  { Event.new with
    cooldown := 60
    components :=
      [ { Event_Component.new with type := EC_REQUIRES_LEVEL, x := 5 },
        { Event_Component.new with type := EC_REQUIRES_NOT_STATUS, s := "boss_dead" },
        { Event_Component.new with type := EC_REWARD_XP, x := 100 } ] }

/-- An event whose loot component comes before its two loot_count components. -/
def lootEvent : Event :=
  { Event.new with
    hotspot := { x := 4, y := 6, w := 1, h := 1 }
    components :=
      [ { Event_Component.new with type := EC_LOOT, s := "loot/chest.txt", a := 2, b := 3 },
        { Event_Component.new with type := EC_LOOT_COUNT, x := 2, y := 5 },
        { Event_Component.new with type := EC_LOOT_COUNT, x := 7, y := 9 } ] }

/-- An event with two tooltip components in a row, then a message. -/
def twoTooltips : Event :=
  { Event.new with
    components :=
      [ { Event_Component.new with type := EC_TOOLTIP, s := "a" },
        { Event_Component.new with type := EC_TOOLTIP, s := "b" },
        { Event_Component.new with type := EC_MSG, s := "c" } ] }

/-- An event located at tile (3, 4) whose sound effect carries the explicit
position (0, 0). -/
def zeroSoundEvent : Event :=
  { Event.new with
    location := { x := 3, y := 4, w := 1, h := 1 }
    components := [ { Event_Component.new with type := EC_SOUNDFX, s := "sfx.ogg", x := 0, y := 0 } ] }

/-- An event located at tile (3, 4) whose sound effect carries no position. -/
def unsetSoundEvent : Event :=
  { Event.new with
    location := { x := 3, y := 4, w := 1, h := 1 }
    components :=
      [ { Event_Component.new with type := EC_SOUNDFX, s := "sfx.ogg", x := -1, y := -1 } ] }

/-- An event whose power comes before its power_path, which targets (5, 6). -/
def powerEvent : Event :=
  { Event.new with
    location := { x := 3, y := 4, w := 1, h := 1 }
    components :=
      [ { Event_Component.new with type := EC_POWER, x := 12 },
        { Event_Component.new with type := EC_POWER_PATH, x := 1, y := 2, a := 5, b := 6 } ] }

/-- A hotspot line followed by a location line. -/
def hotspotThenLocation : List FileParser :=
  [ { key := "hotspot", vals := ["1", "2", "4", "6"], errors := [] },
    { key := "location", vals := ["10", "10", "2", "2"], errors := [] } ]

/-- The keys loadEvent handles itself. -/
def eventKeys : List String :=
  ["type", "activate", "location", "hotspot", "cooldown", "reachable_from"]

/-- The keys loadEventComponent recognizes. -/
def componentKeys : List String :=
  ["tooltip", "power_path", "power_damage", "intermap", "intramap", "mapmod", "soundfx",
   "loot", "loot_count", "msg", "shakycam", "requires_status", "requires_not_status",
   "requires_level", "requires_not_level", "requires_currency", "requires_not_currency",
   "requires_item", "requires_not_item", "requires_class", "requires_not_class",
   "set_status", "unset_status", "remove_currency", "remove_item", "reward_xp",
   "reward_currency", "reward_item", "restore", "power", "spawn", "stash", "npc", "music",
   "cutscene", "repeat", "save_game", "book"]

/-- An event whose last component is a tooltip. -/
def tooltipLast : Event :=
  { Event.new with
    components :=
      [ { Event_Component.new with type := EC_MSG, s := "c" },
        { Event_Component.new with type := EC_TOOLTIP, s := "a" } ] }

/-! # Properties -/

/-! ## Lemmas on the loop body -/

theorem execBranch_fields (c : Collab) (ev : Event) (w : World) (i : Nat) (ec : Event_Component) :
    (execBranch c ev w i ec).1.cooldown_ticks = ev.cooldown_ticks ∧
    (execBranch c ev w i ec).1.cooldown = ev.cooldown ∧
    (execBranch c ev w i ec).1.type = ev.type ∧
    (execBranch c ev w i ec).1.activate_type = ev.activate_type ∧
    (execBranch c ev w i ec).1.location = ev.location ∧
    (execBranch c ev w i ec).1.hotspot = ev.hotspot ∧
    (execBranch c ev w i ec).1.center = ev.center ∧
    (execBranch c ev w i ec).1.reachable_from = ev.reachable_from := by
  rcases ec with ⟨ty, s, x, y, z, a, b⟩
  cases ty <;> simp [execBranch]
  all_goals split <;> simp

theorem execBranch_components (c : Collab) (ev : Event) (w : World) (i : Nat)
    (ec : Event_Component) :
    (execBranch c ev w i ec).1.components =
      if ec.type = EC_LOOT then ev.components.set i (stamped ev ec) else ev.components := by
  rcases ec with ⟨ty, s, x, y, z, a, b⟩
  cases ty <;> simp [execBranch, stamped]
  all_goals split <;> simp

theorem execBranch_keep (c : Collab) (ev : Event) (w : World) (i : Nat)
    (ec : Event_Component) :
    (execBranch c ev w i ec).1.keep_after_trigger =
      if ec.type = EC_REPEAT then c.toBool ec.s
      else if ec.type = EC_INTERMAP ∧ c.fileExists ec.s = false then false
      else ev.keep_after_trigger := by
  rcases ec with ⟨ty, s, x, y, z, a, b⟩
  cases ty <;> simp [execBranch]
  all_goals split <;> simp_all

theorem set_getElem?_self {α : Type} {l : List α} {i : Nat} {a : α} (h : l[i]? = some a) :
    l.set i a = l := by
  induction l generalizing i with
  | nil => rfl
  | cons b t ih =>
    cases i with
    | zero => simp at h; simp [h]
    | succ j => simp at h; simp [ih h]

theorem stamped_type (ev : Event) (ec : Event_Component) : (stamped ev ec).type = ec.type := by
  unfold stamped; split <;> rfl

theorem execComponent_components (c : Collab) (st : Event × World) (i : Nat) :
    (execComponent c st i).1.components =
      match st.1.components[i]? with
      | none => st.1.components
      | some ec => st.1.components.set i (stamped st.1 ec) := by
  unfold execComponent
  cases h : st.1.components[i]? with
  | none => simp
  | some ec =>
    simp only [execBranch_components]
    split
    · rfl
    · rename_i hty
      simp only [stamped, hty, if_false]
      exact (set_getElem?_self h).symm


theorem execComponent_fields (c : Collab) (st : Event × World) (i : Nat) :
    (execComponent c st i).1.cooldown_ticks = st.1.cooldown_ticks ∧
    (execComponent c st i).1.cooldown = st.1.cooldown ∧
    (execComponent c st i).1.type = st.1.type ∧
    (execComponent c st i).1.activate_type = st.1.activate_type ∧
    (execComponent c st i).1.location = st.1.location ∧
    (execComponent c st i).1.hotspot = st.1.hotspot ∧
    (execComponent c st i).1.center = st.1.center ∧
    (execComponent c st i).1.reachable_from = st.1.reachable_from := by
  unfold execComponent
  split
  · simp
  · exact execBranch_fields c st.1 st.2 i _

theorem execUpTo_succ (c : Collab) (k : Nat) (st : Event × World) :
    execUpTo c (k + 1) st = execComponent c (execUpTo c k st) k := by
  simp [execUpTo, List.range_succ, List.foldl_append]

theorem execUpTo_zero (c : Collab) (st : Event × World) : execUpTo c 0 st = st := rfl

theorem execUpTo_fields (c : Collab) (k : Nat) (st : Event × World) :
    (execUpTo c k st).1.cooldown_ticks = st.1.cooldown_ticks ∧
    (execUpTo c k st).1.cooldown = st.1.cooldown ∧
    (execUpTo c k st).1.type = st.1.type ∧
    (execUpTo c k st).1.activate_type = st.1.activate_type ∧
    (execUpTo c k st).1.location = st.1.location ∧
    (execUpTo c k st).1.hotspot = st.1.hotspot ∧
    (execUpTo c k st).1.center = st.1.center ∧
    (execUpTo c k st).1.reachable_from = st.1.reachable_from := by
  induction k with
  | zero => simp [execUpTo_zero]
  | succ k ih =>
    rw [execUpTo_succ]
    have h := execComponent_fields c (execUpTo c k st) k
    obtain ⟨h1, h2, h3, h4, h5, h6, h7, h8⟩ := h
    obtain ⟨i1, i2, i3, i4, i5, i6, i7, i8⟩ := ih
    exact ⟨h1.trans i1, h2.trans i2, h3.trans i3, h4.trans i4, h5.trans i5, h6.trans i6,
      h7.trans i7, h8.trans i8⟩

/-- The component types are the same after any number of iterations. -/
theorem execUpTo_types (c : Collab) (k : Nat) (st : Event × World) :
    (execUpTo c k st).1.components.map (fun ec => ec.type) =
      st.1.components.map (fun ec => ec.type) := by
  induction k with
  | zero => rfl
  | succ k ih =>
    rw [execUpTo_succ, execComponent_components]
    cases h : (execUpTo c k st).1.components[k]? with
    | none => simpa using ih
    | some ec =>
      simp only
      rw [← ih]
      apply List.ext_getElem?
      intro j
      simp only [List.getElem?_map, List.getElem?_set]
      by_cases hj : k = j
      · subst hj
        simp only [if_true]
        split
        · simp [h, stamped_type]
        · rename_i hlt
          have : (execUpTo c k st).1.components[k]? = none := by
            rw [List.getElem?_eq_none_iff]; omega
          simp [this]
      · simp [hj]


theorem execUpTo_keep (c : Collab) (k : Nat) (st : Event × World)
    (hno : ∀ ec ∈ st.1.components, ec.type ≠ EC_REPEAT ∧ ec.type ≠ EC_INTERMAP) :
    (execUpTo c k st).1.keep_after_trigger = st.1.keep_after_trigger := by
  induction k with
  | zero => rfl
  | succ k ih =>
    rw [execUpTo_succ, ← ih]
    unfold execComponent
    cases h : (execUpTo c k st).1.components[k]? with
    | none => rfl
    | some ec =>
      simp only
      have hmem : ec.type ∈ (execUpTo c k st).1.components.map (fun e => e.type) :=
        List.mem_map.mpr ⟨ec, List.getElem?_mem h, rfl⟩
      rw [execUpTo_types] at hmem
      obtain ⟨ec0, hec0, hty⟩ := List.mem_map.mp hmem
      have := hno ec0 hec0
      simp only [hty] at this
      rw [execBranch_keep]
      simp [this.1, this.2]

/-! ## Cooldown gate and return value -/

/-- C1: while cooldown_ticks > 0, executeEvent returns false and hands back the
event and the whole external state (map fields, collaborator calls, log)
exactly as it received them. -/
theorem executeEvent_on_cooldown (c : Collab) (ev : Event) (w : World)
    (h : ev.cooldown_ticks > 0) : executeEvent c ev w = (false, ev, w) := by
  simp [executeEvent, h]

theorem executeEvent_on_cooldown_witness :
    coolingEvent.cooldown_ticks > 0 ∧
      executeEvent sampleCollab coolingEvent sampleWorld = (false, coolingEvent, sampleWorld) :=
  ⟨by decide, executeEvent_on_cooldown sampleCollab coolingEvent sampleWorld (by decide)⟩

/-- C2: when cooldown_ticks <= 0, after executeEvent the event's cooldown_ticks
equals its cooldown field, whatever the component list (the empty one included). -/
theorem executeEvent_sets_cooldown (c : Collab) (ev : Event) (w : World)
    (h : ev.cooldown_ticks ≤ 0) :
    (executeEvent c ev w).2.1.cooldown_ticks = ev.cooldown ∧
      (executeEvent c ev w).2.1.cooldown = ev.cooldown := by
  have h1 : ¬ ev.cooldown_ticks > 0 := not_lt.mpr h
  simp only [executeEvent, h1, if_false]
  have := execUpTo_fields c ev.components.length ({ ev with cooldown_ticks := ev.cooldown }, w)
  exact ⟨this.1, this.2.1⟩

theorem executeEvent_sets_cooldown_witness :
    readyEvent.cooldown_ticks ≤ 0 ∧
      ((executeEvent sampleCollab readyEvent sampleWorld).2.1.cooldown_ticks = 30 ∧
       (executeEvent sampleCollab readyEvent sampleWorld).2.1.cooldown = 30) :=
  ⟨by decide, executeEvent_sets_cooldown sampleCollab readyEvent sampleWorld (by decide)⟩

/-- C3: when cooldown_ticks <= 0, executeEvent returns the negation of the
keep_after_trigger the event holds after the loop; and when the event has no
repeat and no inter-map teleport component, keep_after_trigger is unchanged and
the result is the negation of its value before the call. -/
theorem executeEvent_result (c : Collab) (ev : Event) (w : World)
    (h : ev.cooldown_ticks ≤ 0) :
    (executeEvent c ev w).1 = !(executeEvent c ev w).2.1.keep_after_trigger ∧
    ((∀ ec ∈ ev.components, ec.type ≠ EC_REPEAT ∧ ec.type ≠ EC_INTERMAP) →
      (executeEvent c ev w).2.1.keep_after_trigger = ev.keep_after_trigger ∧
      (executeEvent c ev w).1 = !ev.keep_after_trigger) := by
  have h1 : ¬ ev.cooldown_ticks > 0 := not_lt.mpr h
  simp only [executeEvent, h1, if_false, true_and]
  intro hno
  have := execUpTo_keep c ev.components.length ({ ev with cooldown_ticks := ev.cooldown }, w) hno
  simp only at this
  simp [this]

theorem executeEvent_result_witness :
    plainEvent.cooldown_ticks ≤ 0 ∧
    (executeEvent sampleCollab plainEvent sampleWorld).1 = true ∧
    (executeEvent sampleCollab plainEvent sampleWorld).2.1.keep_after_trigger = false := by
  have h := executeEvent_result sampleCollab plainEvent sampleWorld (by decide)
  have h2 := h.2 (by decide)
  exact ⟨by decide, h2.2, h2.1⟩

/-! ## Requirement gate -/

theorem isActiveFrom_iff (c : Collab) (l : List Event_Component) :
    isActiveFrom c l = true ↔ ∀ ec ∈ l, c.checkAllRequirements ec = true := by
  induction l with
  | nil => simp [isActiveFrom]
  | cons a t ih =>
    unfold isActiveFrom
    cases ha : c.checkAllRequirements a <;> simp [ha, ih]

/-- C4: isActive returns true exactly when the requirement check holds for
every component of the event; it is true for an event without components. -/
theorem isActive_iff_all (c : Collab) (e : Event) :
    (isActive c e = true ↔ ∀ ec ∈ e.components, c.checkAllRequirements ec = true) ∧
    isActive c { e with components := [] } = true ∧
    (isActive c e = false ↔ ∃ ec ∈ e.components, c.checkAllRequirements ec = false) := by
  refine ⟨isActiveFrom_iff c e.components, rfl, ?_⟩
  rw [← Bool.not_eq_true, isActive, isActiveFrom_iff]
  simp


/-! ## Tile mutation -/

theorem write_length (g : Map_Layer) (x y v : Nat) : (g.write x y v).length = g.length := by
  simp [Map_Layer.write]

theorem write_of_le (g : Map_Layer) {x : Nat} (y v : Nat) (hx : g.length ≤ x) :
    g.write x y v = g := by
  unfold Map_Layer.write
  exact List.set_eq_of_length_le hx

theorem write_sized {g : Map_Layer} {w h : Nat} (hg : g.sized w h) (x y v : Nat) :
    (g.write x y v).sized w h := by
  by_cases hx : x < g.length
  · refine ⟨by rw [write_length]; exact hg.1, ?_⟩
    intro col hcol
    rcases List.mem_or_eq_of_mem_set hcol with hmem | heq
    · exact hg.2 col hmem
    · subst heq
      rw [List.length_set, List.getD_eq_getElem g [] hx]
      exact hg.2 _ (List.getElem_mem hx)
  · rw [write_of_le g y v (by omega)]; exact hg

theorem write_cell_self {g : Map_Layer} {w h x y : Nat} (hg : g.sized w h) (hx : x < w)
    (hy : y < h) (v : Nat) : (g.write x y v).cell x y = some v := by
  have hx1 : x < g.length := by rw [hg.1]; exact hx
  have hcol : (g.getD x []).length = h := by
    rw [List.getD_eq_getElem g [] hx1]; exact hg.2 _ (List.getElem_mem hx1)
  unfold Map_Layer.cell Map_Layer.write
  rw [List.getElem?_set_self hx1]
  simp only [Option.some_bind]
  rw [List.getElem?_set_self (by omega)]

theorem write_cell_ne (g : Map_Layer) {x y x1 y1 : Nat} (v : Nat)
    (hne : ¬ (x1 = x ∧ y1 = y)) : (g.write x y v).cell x1 y1 = g.cell x1 y1 := by
  unfold Map_Layer.cell Map_Layer.write
  by_cases hx : x = x1
  · subst hx
    by_cases hlt : x < g.length
    · rw [List.getElem?_set_self hlt, List.getD_eq_getElem g [] hlt]
      have hy : y ≠ y1 := fun h => hne ⟨rfl, h.symm⟩
      simp [List.getElem?_eq_getElem hlt, List.getElem?_set_ne hy]
    · rw [List.set_eq_of_length_le (by omega)]
  · rw [List.getElem?_set_ne hx]

theorem toUShort_cast (z : Int) : ((toUShort z : Nat) : Int) = z % 65536 := by
  unfold toUShort
  exact Int.toNat_of_nonneg (Int.emod_nonneg z (by decide))

theorem inBounds_iff (m : MapRenderer) (x y : Int) :
    inBounds m x y = true ↔ 0 ≤ x ∧ x < (m.w : Int) ∧ 0 ≤ y ∧ y < (m.h : Int) := by
  simp [inBounds, and_assoc]

/-- The tile-mutation branch keeps the dimensions, the layer names, the number
of layers and the sizes of all grids. -/
theorem execMapmod_static (c : Collab) (ec : Event_Component) (w : World) :
    (execMapmod c ec w).mapr.w = w.mapr.w ∧ (execMapmod c ec w).mapr.h = w.mapr.h ∧
    (execMapmod c ec w).mapr.layernames = w.mapr.layernames ∧
    (execMapmod c ec w).mapr.layers.length = w.mapr.layers.length ∧
    (w.mapr.sized → (execMapmod c ec w).mapr.sized) := by
  unfold execMapmod
  split
  · split
    · refine ⟨rfl, rfl, rfl, rfl, fun hs => ⟨write_sized hs.1 _ _ _, hs.2⟩⟩
    · exact ⟨rfl, rfl, rfl, rfl, id⟩
  · simp only
    split
    · exact ⟨rfl, rfl, rfl, rfl, id⟩
    · split
      · exact ⟨rfl, rfl, rfl, rfl, id⟩
      · split
        · rename_i hidx _
          refine ⟨rfl, rfl, rfl, by simp, fun hs => ⟨hs.1, ?_⟩⟩
          intro g hg
          have hlt : w.mapr.layernames.indexOf ec.s < w.mapr.layers.length := by omega
          rcases List.mem_or_eq_of_mem_set hg with hmem | heq
          · exact hs.2 g hmem
          · subst heq
            apply write_sized
            rw [List.getD_eq_getElem _ [] hlt]
            exact hs.2 _ (List.getElem_mem hlt)
        · exact ⟨rfl, rfl, rfl, rfl, id⟩

/-- Every branch but the tile mutation leaves the grids and dimensions alone. -/
theorem execBranch_grids (c : Collab) (ev : Event) (w : World) (i : Nat)
    (ec : Event_Component) (hm : ec.type ≠ EC_MAPMOD) :
    (execBranch c ev w i ec).2.mapr.w = w.mapr.w ∧
    (execBranch c ev w i ec).2.mapr.h = w.mapr.h ∧
    (execBranch c ev w i ec).2.mapr.layernames = w.mapr.layernames ∧
    (execBranch c ev w i ec).2.mapr.layers = w.mapr.layers ∧
    (execBranch c ev w i ec).2.mapr.colmap = w.mapr.colmap ∧
    (execBranch c ev w i ec).2.mapr.map_change = w.mapr.map_change := by
  rcases ec with ⟨ty, s, x, y, z, a, b⟩
  cases ty <;> first | exact absurd rfl hm | simp [execBranch, World.call]
  all_goals split <;> simp

theorem execBranch_static (c : Collab) (ev : Event) (w : World) (i : Nat)
    (ec : Event_Component) :
    (execBranch c ev w i ec).2.mapr.w = w.mapr.w ∧
    (execBranch c ev w i ec).2.mapr.h = w.mapr.h ∧
    (execBranch c ev w i ec).2.mapr.layernames = w.mapr.layernames ∧
    (execBranch c ev w i ec).2.mapr.layers.length = w.mapr.layers.length ∧
    (w.mapr.sized → (execBranch c ev w i ec).2.mapr.sized) := by
  by_cases hm : ec.type = EC_MAPMOD
  · have : (execBranch c ev w i ec).2 = execMapmod c ec w := by
      unfold execBranch; rw [hm]
    rw [this]; exact execMapmod_static c ec w
  · obtain ⟨h1, h2, h3, h4, h5, _⟩ := execBranch_grids c ev w i ec hm
    refine ⟨h1, h2, h3, by rw [h4], ?_⟩
    unfold MapRenderer.sized
    rw [h1, h2, h4, h5]
    exact id

theorem execComponent_static (c : Collab) (st : Event × World) (i : Nat) :
    (execComponent c st i).2.mapr.w = st.2.mapr.w ∧
    (execComponent c st i).2.mapr.h = st.2.mapr.h ∧
    (execComponent c st i).2.mapr.layernames = st.2.mapr.layernames ∧
    (execComponent c st i).2.mapr.layers.length = st.2.mapr.layers.length ∧
    (st.2.mapr.sized → (execComponent c st i).2.mapr.sized) := by
  unfold execComponent
  split
  · exact ⟨rfl, rfl, rfl, rfl, id⟩
  · exact execBranch_static c st.1 st.2 i _

theorem execUpTo_static (c : Collab) (k : Nat) (st : Event × World) :
    (execUpTo c k st).2.mapr.w = st.2.mapr.w ∧
    (execUpTo c k st).2.mapr.h = st.2.mapr.h ∧
    (execUpTo c k st).2.mapr.layernames = st.2.mapr.layernames ∧
    (execUpTo c k st).2.mapr.layers.length = st.2.mapr.layers.length ∧
    (st.2.mapr.sized → (execUpTo c k st).2.mapr.sized) := by
  induction k with
  | zero => exact ⟨rfl, rfl, rfl, rfl, id⟩
  | succ k ih =>
    rw [execUpTo_succ]
    obtain ⟨h1, h2, h3, h4, h5⟩ := execComponent_static c (execUpTo c k st) k
    obtain ⟨i1, i2, i3, i4, i5⟩ := ih
    exact ⟨h1.trans i1, h2.trans i2, h3.trans i3, h4.trans i4, fun hs => h5 (i5 hs)⟩

/-- An iteration writes only the component at its own index. -/
theorem execUpTo_getElem?_ge (c : Collab) (k : Nat) (st : Event × World) (i : Nat)
    (hki : k ≤ i) : (execUpTo c k st).1.components[i]? = st.1.components[i]? := by
  induction k with
  | zero => rfl
  | succ k ih =>
    rw [execUpTo_succ, execComponent_components]
    split
    · exact ih (by omega)
    · rw [List.getElem?_set_ne (by omega)]
      exact ih (by omega)


theorem execState_getElem? (c : Collab) (ev : Event) (w : World) (i : Nat) :
    (execState c ev w i).1.components[i]? = ev.components[i]? :=
  execUpTo_getElem?_ge c i _ i (le_refl i)

theorem execState_mapmod (c : Collab) (ev : Event) (w : World) (i : Nat)
    (ec : Event_Component) (hi : ev.components[i]? = some ec) (hty : ec.type = EC_MAPMOD) :
    execState c ev w (i + 1) =
      ((execState c ev w i).1, execMapmod c ec (execState c ev w i).2) := by
  have h := execState_getElem? c ev w i
  rw [hi] at h
  unfold execState at h ⊢
  rw [execUpTo_succ]
  unfold execComponent
  rw [h]
  simp only
  unfold execBranch
  rw [hty]

theorem executeEvent_eq_execState (c : Collab) (ev : Event) (w : World)
    (h : ev.cooldown_ticks ≤ 0) :
    executeEvent c ev w =
      (!(execState c ev w ev.components.length).1.keep_after_trigger,
        (execState c ev w ev.components.length).1,
        (execState c ev w ev.components.length).2) := by
  have h1 : ¬ ev.cooldown_ticks > 0 := not_lt.mpr h
  simp [executeEvent, h1, execState]

/-- C8: in an event that is off cooldown, running the iteration of a
tile-mutation component whose layer string is "collision": when (x, y) is inside
the map, cell [x][y] of the collision grid becomes z as an unsigned 16-bit
value, every other cell of the grid keeps its value, map_change is set and the
named tile layers are untouched, whatever the layer names are; when (x, y) is
outside the map, the collision grid, the layers and map_change are untouched.
The states compared are the ones executeEvent passes through before and after
that iteration; the last of them is the one executeEvent returns. -/
theorem mapmod_collision (c : Collab) (ev : Event) (w : World) (i : Nat)
    (ec : Event_Component) (hcd : ev.cooldown_ticks ≤ 0)
    (hi : ev.components[i]? = some ec) (hty : ec.type = EC_MAPMOD)
    (hs : ec.s = "collision") (hsz : w.mapr.sized) :
    (executeEvent c ev w).2 = execState c ev w ev.components.length ∧
    ((0 ≤ ec.x ∧ ec.x < (w.mapr.w : Int) ∧ 0 ≤ ec.y ∧ ec.y < (w.mapr.h : Int)) →
      (∃ v : Nat, (execState c ev w (i + 1)).2.mapr.colmap.cell ec.x.toNat ec.y.toNat = some v ∧
        (v : Int) = ec.z % 65536) ∧
      (∀ x1 y1 : Nat, ¬ (x1 = ec.x.toNat ∧ y1 = ec.y.toNat) →
        (execState c ev w (i + 1)).2.mapr.colmap.cell x1 y1 =
          (execState c ev w i).2.mapr.colmap.cell x1 y1) ∧
      (execState c ev w (i + 1)).2.mapr.map_change = true ∧
      (execState c ev w (i + 1)).2.mapr.layers = (execState c ev w i).2.mapr.layers) ∧
    (¬ (0 ≤ ec.x ∧ ec.x < (w.mapr.w : Int) ∧ 0 ≤ ec.y ∧ ec.y < (w.mapr.h : Int)) →
      (execState c ev w (i + 1)).2.mapr.colmap = (execState c ev w i).2.mapr.colmap ∧
      (execState c ev w (i + 1)).2.mapr.layers = (execState c ev w i).2.mapr.layers ∧
      (execState c ev w (i + 1)).2.mapr.map_change =
        (execState c ev w i).2.mapr.map_change) := by
  refine ⟨by rw [executeEvent_eq_execState c ev w hcd], ?_, ?_⟩
  all_goals
    intro hb
    rw [execState_mapmod c ev w i ec hi hty]
    obtain ⟨hw, hh, _, _, hsized⟩ := execUpTo_static c i ({ ev with cooldown_ticks := ev.cooldown }, w)
    have hb1 := inBounds_iff (execState c ev w i).2.mapr ec.x ec.y
    unfold execState at hb1 ⊢
    rw [hw, hh] at hb1
    simp only [execMapmod, hs, if_true]
  · rw [if_pos (hb1.mpr hb)]
    simp only
    have hx : ec.x.toNat < w.mapr.w := by omega
    have hy : ec.y.toNat < w.mapr.h := by omega
    have hsz1 := (hsized hsz).1
    rw [hw, hh] at hsz1
    exact ⟨⟨toUShort ec.z, write_cell_self hsz1 hx hy _, toUShort_cast ec.z⟩,
      fun x1 y1 hne => write_cell_ne _ _ hne, by first | rfl | trivial, by first | rfl | trivial⟩
  · have : ¬ (inBounds (execUpTo c i ({ ev with cooldown_ticks := ev.cooldown }, w)).2.mapr
        ec.x ec.y = true) := fun h => hb (hb1.mp h)
    rw [if_neg this]
    exact ⟨rfl, rfl, rfl⟩

theorem mapmod_collision_witness :
    readyEvent.cooldown_ticks ≤ 0 ∧
    (execState sampleCollab readyEvent sampleWorld 0).2.mapr.colmap = [[0, 0], [0, 0]] ∧
    (execState sampleCollab readyEvent sampleWorld 1).2.mapr.colmap.cell 1 1 = some 3 ∧
    (execState sampleCollab readyEvent sampleWorld 1).2.mapr.map_change = true ∧
    (execState sampleCollab readyEvent sampleWorld 1).2.mapr.layers = sampleMap.layers := by
  have h := mapmod_collision sampleCollab readyEvent sampleWorld 0
    { Event_Component.new with type := EC_MAPMOD, s := "collision", x := 1, y := 1, z := 3 }
    (by decide) (by decide) (by decide) (by decide) (by unfold MapRenderer.sized Map_Layer.sized; decide)
  have h2 := h.2.1 (by decide)
  exact ⟨by decide, by decide, by decide, h2.2.2.1, h2.2.2.2⟩


theorem indexOf_first (l : List String) (a : String) (j : Nat) (hj : j < l.indexOf a) :
    l[j]? ≠ some a := by
  induction l generalizing j with
  | nil => simp
  | cons b t ih =>
    by_cases hb : b = a
    · rw [List.indexOf_cons_eq _ hb] at hj; omega
    · rw [List.indexOf_cons_ne _ hb] at hj
      cases j with
      | zero => simpa using hb
      | succ j => simpa using ih j (by omega)

theorem cellOf_set_self {layers : List Map_Layer} {w h idx x y : Nat} (g : Map_Layer)
    (hidx : idx < layers.length) (hg : g.sized w h) (hx : x < w) (hy : y < h) (v : Nat) :
    cellOf (layers.set idx (g.write x y v)) idx x y = some v := by
  unfold cellOf
  rw [List.getElem?_set_self hidx]
  exact write_cell_self hg hx hy v

theorem cellOf_set_ne (layers : List Map_Layer) {idx x y l x1 y1 : Nat} (v : Nat)
    (hne : ¬ (l = idx ∧ x1 = x ∧ y1 = y)) :
    cellOf (layers.set idx ((layers.getD idx []).write x y v)) l x1 y1 =
      cellOf layers l x1 y1 := by
  unfold cellOf
  by_cases hl : idx = l
  · subst hl
    by_cases hlt : idx < layers.length
    · rw [List.getElem?_set_self hlt, List.getD_eq_getElem layers [] hlt,
        List.getElem?_eq_getElem hlt]
      simp only [Option.some_bind]
      exact write_cell_ne _ _ (fun h => hne ⟨rfl, h.1, h.2⟩)
    · rw [List.set_eq_of_length_le (by omega)]
  · rw [List.getElem?_set_ne hl]

/-- C9: in an event that is off cooldown, on a map with as many layer names
as layers, running the iteration of a tile-mutation component whose layer
string s is not "collision" writes a tile exactly when the tile id z is valid,
s is one of the layer names and (x, y) is inside the map: then cell [x][y] of
the first layer named s becomes z as an unsigned 16-bit value, every other cell
of every layer keeps its value and the collision grid is untouched; when one of
the three checks fails the layers and the collision grid are untouched. -/
theorem mapmod_layer (c : Collab) (ev : Event) (w : World) (i : Nat)
    (ec : Event_Component) (hcd : ev.cooldown_ticks ≤ 0)
    (hi : ev.components[i]? = some ec) (hty : ec.type = EC_MAPMOD)
    (hs : ec.s ≠ "collision") (hlen : w.mapr.layernames.length = w.mapr.layers.length)
    (hsz : w.mapr.sized) :
    (executeEvent c ev w).2 = execState c ev w ev.components.length ∧
    ((c.isValidTile ec.z = true ∧ ec.s ∈ w.mapr.layernames ∧
        0 ≤ ec.x ∧ ec.x < (w.mapr.w : Int) ∧ 0 ≤ ec.y ∧ ec.y < (w.mapr.h : Int)) →
      (w.mapr.layernames[w.mapr.layernames.indexOf ec.s]? = some ec.s ∧
        ∀ j, j < w.mapr.layernames.indexOf ec.s → w.mapr.layernames[j]? ≠ some ec.s) ∧
      (∃ v : Nat,
        cellOf (execState c ev w (i + 1)).2.mapr.layers (w.mapr.layernames.indexOf ec.s)
          ec.x.toNat ec.y.toNat = some v ∧ (v : Int) = ec.z % 65536) ∧
      (∀ l x1 y1 : Nat,
        ¬ (l = w.mapr.layernames.indexOf ec.s ∧ x1 = ec.x.toNat ∧ y1 = ec.y.toNat) →
        cellOf (execState c ev w (i + 1)).2.mapr.layers l x1 y1 =
          cellOf (execState c ev w i).2.mapr.layers l x1 y1) ∧
      (execState c ev w (i + 1)).2.mapr.colmap = (execState c ev w i).2.mapr.colmap) ∧
    (¬ (c.isValidTile ec.z = true ∧ ec.s ∈ w.mapr.layernames ∧
        0 ≤ ec.x ∧ ec.x < (w.mapr.w : Int) ∧ 0 ≤ ec.y ∧ ec.y < (w.mapr.h : Int)) →
      (execState c ev w (i + 1)).2.mapr.layers = (execState c ev w i).2.mapr.layers ∧
      (execState c ev w (i + 1)).2.mapr.colmap = (execState c ev w i).2.mapr.colmap) := by
  refine ⟨by rw [executeEvent_eq_execState c ev w hcd], ?_, ?_⟩
  all_goals
    intro hb
    rw [execState_mapmod c ev w i ec hi hty]
    obtain ⟨hw, hh, hnames, hlayers, hsized⟩ :=
      execUpTo_static c i ({ ev with cooldown_ticks := ev.cooldown }, w)
    have hb1 := inBounds_iff (execState c ev w i).2.mapr ec.x ec.y
    unfold execState at hb1 ⊢
    rw [hw, hh] at hb1
    simp only [execMapmod, hs, if_false, hnames, hlayers]
  · obtain ⟨hv, hmem, hxy⟩ := hb
    have hidx : w.mapr.layernames.indexOf ec.s < w.mapr.layers.length := by
      rw [← hlen]; exact List.indexOf_lt_length.mpr hmem
    rw [if_neg (by simp [hv]), if_neg (by omega), if_pos (hb1.mpr hxy)]
    simp only
    have hx : ec.x.toNat < w.mapr.w := by omega
    have hy : ec.y.toNat < w.mapr.h := by omega
    have hidx1 : w.mapr.layernames.indexOf ec.s <
        (execUpTo c i ({ ev with cooldown_ticks := ev.cooldown }, w)).2.mapr.layers.length := by
      rw [hlayers]; exact hidx
    have hg := (hsized hsz).2 _ (List.getElem_mem hidx1)
    rw [hw, hh] at hg
    refine ⟨⟨List.getElem?_indexOf hmem, fun j hj => indexOf_first _ _ j hj⟩,
      ⟨toUShort ec.z, ?_, toUShort_cast ec.z⟩, fun l x1 y1 hne => cellOf_set_ne _ _ hne, trivial⟩
    rw [List.getD_eq_getElem _ [] hidx1]
    exact cellOf_set_self _ hidx1 hg hx hy _
  · by_cases hv : c.isValidTile ec.z = true
    · rw [if_neg (by simp [hv])]
      by_cases hmem : ec.s ∈ w.mapr.layernames
      · have hidx : w.mapr.layernames.indexOf ec.s < w.mapr.layers.length := by
          rw [← hlen]; exact List.indexOf_lt_length.mpr hmem
        rw [if_neg (by omega)]
        have : ¬ (inBounds (execUpTo c i ({ ev with cooldown_ticks := ev.cooldown }, w)).2.mapr
            ec.x ec.y = true) := fun h => hb ⟨hv, hmem, hb1.mp h⟩
        rw [if_neg this]
        exact ⟨rfl, rfl⟩
      · have hidx : w.mapr.layernames.indexOf ec.s = w.mapr.layers.length := by
          rw [← hlen]; exact List.indexOf_eq_length.mpr hmem
        rw [if_pos (by omega)]
        exact ⟨rfl, rfl⟩
    · rw [if_pos (by simp [hv])]
      exact ⟨rfl, rfl⟩


theorem mapmod_layer_witness :
    layerEvent.cooldown_ticks ≤ 0 ∧
    cellOf (execState sampleCollab layerEvent sampleWorld 0).2.mapr.layers 1 0 1 = some 0 ∧
    cellOf (execState sampleCollab layerEvent sampleWorld 1).2.mapr.layers 1 0 1 = some 5 ∧
    (execState sampleCollab layerEvent sampleWorld 1).2.mapr.colmap =
      (execState sampleCollab layerEvent sampleWorld 0).2.mapr.colmap := by
  have h := mapmod_layer sampleCollab layerEvent sampleWorld 0
    { Event_Component.new with type := EC_MAPMOD, s := "object", x := 0, y := 1, z := 5 }
    (by decide) (by decide) (by decide) (by decide) (by decide)
    (by unfold MapRenderer.sized Map_Layer.sized; decide)
  have h2 := h.2.1 (by decide)
  exact ⟨by decide, by decide, by decide, h2.2.2.2⟩

/-! ## A failing tile mutation is skipped -/

theorem execMapmod_congr (c : Collab) (ec : Event_Component) (w1 w2 : World)
    (hm : w1.mapr = w2.mapr) (hc : w1.calls = w2.calls) :
    (execMapmod c ec w1).mapr = (execMapmod c ec w2).mapr ∧
    (execMapmod c ec w1).calls = (execMapmod c ec w2).calls := by
  unfold execMapmod
  rw [hm]
  split
  · split <;> simp [World.logError, hc, hm]
  · simp only
    split
    · simp [World.logError, hc, hm]
    · split
      · simp [World.logError, hc, hm]
      · split <;> simp [World.logError, hc, hm]

theorem execMapmod_fails (c : Collab) (ec : Event_Component) (w : World)
    (hf : mapmodFails c w.mapr ec = true) :
    (execMapmod c ec w).mapr = w.mapr ∧ (execMapmod c ec w).calls = w.calls := by
  unfold mapmodFails at hf
  unfold execMapmod
  split
  · rename_i hs
    simp only [hs, if_true, Bool.not_eq_true'] at hf
    simp [hf, World.logError]
  · rename_i hs
    simp only [hs, if_false] at hf
    simp only
    split
    · simp [World.logError]
    · split
      · simp [World.logError]
      · split
        · rename_i h1 h2 h3
          simp [h3] at hf
          rcases hf with hf | hf
          · simp [hf] at h1
          · omega
        · simp [World.logError]

theorem mapmodFails_congr (c : Collab) (ec : Event_Component) (m1 m2 : MapRenderer)
    (hw : m1.w = m2.w) (hh : m1.h = m2.h) (hn : m1.layernames = m2.layernames)
    (hl : m1.layers.length = m2.layers.length) :
    mapmodFails c m1 ec = mapmodFails c m2 ec := by
  simp [mapmodFails, inBounds, hw, hh, hn, hl]


/-- The loop body reads the event only through its scalar fields and the two
lookups getComponent(EC_LOOT_COUNT) and getComponent(EC_POWER_PATH), and reads
the world only through the map and the calls. -/
theorem execBranch_congr (c : Collab) (e : Event) (cA cB : List Event_Component)
    (wA wB : World) (iA iB : Nat) (ec : Event_Component)
    (hlc : cA.find? (fun x => decide (x.type = EC_LOOT_COUNT)) =
      cB.find? (fun x => decide (x.type = EC_LOOT_COUNT)))
    (hpp : cA.find? (fun x => decide (x.type = EC_POWER_PATH)) =
      cB.find? (fun x => decide (x.type = EC_POWER_PATH)))
    (hm : wA.mapr = wB.mapr) (hc : wA.calls = wB.calls) :
    (execBranch c { e with components := cA } wA iA ec).1 =
      { (execBranch c { e with components := cB } wB iB ec).1 with
        components := (execBranch c { e with components := cA } wA iA ec).1.components } ∧
    (execBranch c { e with components := cA } wA iA ec).2.mapr =
      (execBranch c { e with components := cB } wB iB ec).2.mapr ∧
    (execBranch c { e with components := cA } wA iA ec).2.calls =
      (execBranch c { e with components := cB } wB iB ec).2.calls := by
  by_cases hmm : ec.type = EC_MAPMOD
  · have h1 : ∀ (e1 : Event) (w1 : World) (i1 : Nat),
        execBranch c e1 w1 i1 ec = (e1, execMapmod c ec w1) := by
      intro e1 w1 i1; unfold execBranch; rw [hmm]
    rw [h1, h1]
    exact ⟨rfl, execMapmod_congr c ec wA wB hm hc⟩
  · rcases wA with ⟨mA, kA, lA⟩
    rcases wB with ⟨mB, kB, lB⟩
    simp only at hm hc
    subst hm hc
    rcases ec with ⟨ty, s, x, y, z, a, b⟩
    cases ty <;> first | exact absurd rfl hmm | simp [execBranch, World.call, Event.getComponent, powerTarget, soundPos, hlc, hpp]
    all_goals split <;> simp


theorem find?_skip (p q : List Event_Component) (bad : Event_Component)
    (ty : EVENT_COMPONENT_TYPE) (hne : bad.type ≠ ty) :
    (p ++ bad :: q).find? (fun x => decide (x.type = ty)) =
      (p ++ q).find? (fun x => decide (x.type = ty)) := by
  simp [List.find?_append, List.find?_cons, hne]

theorem stamped_congr (e1 e2 : Event) (ec : Event_Component) (h : e1.hotspot = e2.hotspot) :
    stamped e1 ec = stamped e2 ec := by
  unfold stamped; rw [h]

/-- One iteration keeps two runs related when it reads the same component in
both: index `iA` of the longer list and index `iB` of the shorter one. -/
theorem skip_step (c : Collab) (bad : Event_Component) (n : Nat) (A B : Event × World)
    (hbad : bad.type = EC_MAPMOD) (hrel : SkipRel bad n A B) (iA iB : Nat)
    (hidx : (iA < n ∧ iB = iA) ∨ (n < iA ∧ iA = iB + 1)) :
    SkipRel bad n (execComponent c A iA) (execComponent c B iB) := by
  obtain ⟨p, q, hp, hA, hB, hev, hm, hc⟩ := hrel
  rcases A with ⟨evA, wA⟩
  rcases B with ⟨evB, wB⟩
  simp only at hA hB hev hm hc
  have hlook : evA.components[iA]? = evB.components[iB]? := by
    rw [hA, hB]
    rcases hidx with ⟨h1, h2⟩ | ⟨h1, h2⟩
    · subst h2
      rw [List.getElem?_append_left (by omega), List.getElem?_append_left (by omega)]
    · rw [List.getElem?_append_right (by omega), List.getElem?_append_right (by omega)]
      have : iA - p.length = (iB - p.length) + 1 := by omega
      rw [this, List.getElem?_cons_succ]
  unfold execComponent
  simp only
  rw [hlook]
  cases hec : evB.components[iB]? with
  | none => exact ⟨p, q, hp, hA, hB, hev, hm, hc⟩
  | some ec =>
    simp only
    have hcg := execBranch_congr c evB evA.components evB.components wA wB iA iB ec
      (by rw [hA, hB]; exact find?_skip p q bad _ (by rw [hbad]; decide))
      (by rw [hA, hB]; exact find?_skip p q bad _ (by rw [hbad]; decide)) hm hc
    rw [← hev] at hcg
    obtain ⟨hcg1, hcg2, hcg3⟩ := hcg
    have hcA := execBranch_components c evA wA iA ec
    have hcB := execBranch_components c evB wB iB ec
    have hst : stamped evA ec = stamped evB ec := by
      apply stamped_congr; rw [hev]
    by_cases hl : ec.type = EC_LOOT
    · rw [if_pos hl] at hcA hcB
      rcases hidx with ⟨h1, h2⟩ | ⟨h1, h2⟩
      · subst h2
        refine ⟨p.set iB (stamped evB ec), q, by simp [hp], ?_, ?_, hcg1, hcg2, hcg3⟩
        · rw [hcA, hA, hst, List.set_append_left _ _ (by omega)]
        · rw [hcB, hB, List.set_append_left _ _ (by omega)]
      · refine ⟨p, q.set (iB - p.length) (stamped evB ec), hp, ?_, ?_, hcg1, hcg2, hcg3⟩
        · rw [hcA, hA, hst, List.set_append_right _ _ (by omega)]
          have : iA - p.length = (iB - p.length) + 1 := by omega
          rw [this, List.set_cons_succ]
        · rw [hcB, hB, List.set_append_right _ _ (by omega)]
    · rw [if_neg hl] at hcA hcB
      exact ⟨p, q, hp, by rw [hcA, hA], by rw [hcB, hB], hcg1, hcg2, hcg3⟩

/-- The iteration of a failing tile mutation keeps the runs related. -/
theorem skip_bad (c : Collab) (bad : Event_Component) (n : Nat) (A B : Event × World)
    (hbad : bad.type = EC_MAPMOD) (hrel : SkipRel bad n A B)
    (hf : mapmodFails c A.2.mapr bad = true) :
    SkipRel bad n (execComponent c A n) B := by
  obtain ⟨p, q, hp, hA, hB, hev, hm, hc⟩ := hrel
  have hlook : A.1.components[n]? = some bad := by
    rw [hA, List.getElem?_append_right (by omega)]
    simp [hp]
  unfold execComponent
  rw [hlook]
  simp only
  have h1 : execBranch c A.1 A.2 n bad = (A.1, execMapmod c bad A.2) := by
    unfold execBranch; rw [hbad]
  rw [h1]
  obtain ⟨hf1, hf2⟩ := execMapmod_fails c bad A.2 hf
  exact ⟨p, q, hp, hA, hB, hev, by rw [hf1, hm], by rw [hf2, hc]⟩


theorem skip_upto_le (c : Collab) (bad : Event_Component) (n : Nat) (A B : Event × World)
    (hbad : bad.type = EC_MAPMOD) (hrel : SkipRel bad n A B) (k : Nat) (hk : k ≤ n) :
    SkipRel bad n (execUpTo c k A) (execUpTo c k B) := by
  induction k with
  | zero => exact hrel
  | succ k ih =>
    rw [execUpTo_succ, execUpTo_succ]
    exact skip_step c bad n _ _ hbad (ih (by omega)) k k (Or.inl ⟨by omega, rfl⟩)

theorem skip_upto_gt (c : Collab) (bad : Event_Component) (n : Nat) (A B : Event × World)
    (hbad : bad.type = EC_MAPMOD) (hrel : SkipRel bad n A B)
    (hf : mapmodFails c A.2.mapr bad = true) (k : Nat) (hk : n ≤ k) :
    SkipRel bad n (execUpTo c (k + 1) A) (execUpTo c k B) := by
  induction k with
  | zero =>
    have hn : n = 0 := by omega
    subst hn
    rw [execUpTo_succ]
    exact skip_bad c bad 0 _ _ hbad hrel hf
  | succ k ih =>
    by_cases hkn : n = k + 1
    · rw [execUpTo_succ c (k + 1) A]
      have hr := skip_upto_le c bad n A B hbad hrel (k + 1) (by omega)
      rw [← hkn]
      rw [← hkn] at hr
      refine skip_bad c bad n _ _ hbad hr ?_
      obtain ⟨h1, h2, h3, h4, _⟩ := execUpTo_static c n A
      rw [mapmodFails_congr c bad _ A.2.mapr h1 h2 h3 h4]
      exact hf
    · rw [execUpTo_succ c (k + 1) A, execUpTo_succ c k B]
      exact skip_step c bad n _ _ hbad (ih (by omega)) (k + 1) k (Or.inr ⟨by omega, rfl⟩)

/-- C10: in an event that is off cooldown, a tile-mutation component that
fails its check (position out of bounds, invalid tile id, or layer index not
below the number of layers) changes neither the event nor the map nor the
collaborator calls in its own iteration, and the loop goes on: the value
returned, the final map, the calls made and the final event are those of
executing the event without that component, the component itself staying in the
list as it was.  Only the diagnostic log differs. -/
theorem failing_mapmod_skipped (c : Collab) (ev : Event) (w : World)
    (pre post : List Event_Component) (bad : Event_Component)
    (hcd : ev.cooldown_ticks ≤ 0) (hcomp : ev.components = pre ++ bad :: post)
    (hty : bad.type = EC_MAPMOD) (hfail : mapmodFails c w.mapr bad = true) :
    ((execState c ev w (pre.length + 1)).1 = (execState c ev w pre.length).1 ∧
      (execState c ev w (pre.length + 1)).2.mapr = (execState c ev w pre.length).2.mapr ∧
      (execState c ev w (pre.length + 1)).2.calls = (execState c ev w pre.length).2.calls) ∧
    (executeEvent c ev w).1 = (executeEvent c { ev with components := pre ++ post } w).1 ∧
    (executeEvent c ev w).2.2.mapr =
      (executeEvent c { ev with components := pre ++ post } w).2.2.mapr ∧
    (executeEvent c ev w).2.2.calls =
      (executeEvent c { ev with components := pre ++ post } w).2.2.calls ∧
    (executeEvent c ev w).2.1 =
      { (executeEvent c { ev with components := pre ++ post } w).2.1 with
        components := (executeEvent c ev w).2.1.components } ∧
    (executeEvent c ev w).2.1.components[pre.length]? = some bad ∧
    (executeEvent c ev w).2.1.components.eraseIdx pre.length =
      (executeEvent c { ev with components := pre ++ post } w).2.1.components := by
  have hlook : ev.components[pre.length]? = some bad := by
    rw [hcomp, List.getElem?_append_right (le_refl _)]; simp
  constructor
  · rw [execState_mapmod c ev w pre.length bad hlook hty]
    obtain ⟨h1, h2, h3, h4, _⟩ :=
      execUpTo_static c pre.length ({ ev with cooldown_ticks := ev.cooldown }, w)
    have hf : mapmodFails c (execState c ev w pre.length).2.mapr bad = true := by
      unfold execState
      rw [mapmodFails_congr c bad _ w.mapr h1 h2 h3 h4]; exact hfail
    obtain ⟨hf1, hf2⟩ := execMapmod_fails c bad _ hf
    exact ⟨rfl, hf1, hf2⟩
  · have h1 : ¬ ev.cooldown_ticks > 0 := not_lt.mpr hcd
    simp only [executeEvent, h1, if_false]
    have hrel : SkipRel bad pre.length ({ ev with cooldown_ticks := ev.cooldown }, w)
        ({ ev with cooldown_ticks := ev.cooldown, components := pre ++ post }, w) :=
      ⟨pre, post, rfl, hcomp, rfl, by simp, rfl, rfl⟩
    have hfin := skip_upto_gt c bad pre.length _ _ hty hrel hfail (pre ++ post).length
      (by simp)
    have hlen : ev.components.length = (pre ++ post).length + 1 := by
      rw [hcomp]; simp; omega
    rw [hlen]
    obtain ⟨p, q, hp, hA, hB, hev, hm, hc⟩ := hfin
    refine ⟨?_, hm, hc, hev, ?_, ?_⟩
    · rw [hev]
    · rw [hA, List.getElem?_append_right (by omega)]; simp [hp]
    · rw [hA, hB, List.eraseIdx_append_of_length_le (by omega)]; simp [hp]

theorem failing_mapmod_skipped_witness :
    faultyEvent.cooldown_ticks ≤ 0 ∧ mapmodFails sampleCollab sampleWorld.mapr outsideMapmod = true ∧
    (executeEvent sampleCollab faultyEvent sampleWorld).1 = true ∧
    (executeEvent sampleCollab faultyEvent sampleWorld).2.2.calls = [Call.rewardXP 100 true] ∧
    (executeEvent sampleCollab faultyEvent sampleWorld).2.2.log = [LogEntry.outOfBounds 5 5] ∧
    (executeEvent sampleCollab faultyEvent sampleWorld).2.2.mapr =
      (executeEvent sampleCollab
        { faultyEvent with components :=
            [{ Event_Component.new with type := EC_REWARD_XP, x := 100 }] ++
            [ { Event_Component.new with type := EC_LOOT, s := "loot/chest.txt" },
              { Event_Component.new with type := EC_REPEAT, s := "false" } ] }
        sampleWorld).2.2.mapr := by
  have h := failing_mapmod_skipped sampleCollab faultyEvent sampleWorld
    [{ Event_Component.new with type := EC_REWARD_XP, x := 100 }]
    [ { Event_Component.new with type := EC_LOOT, s := "loot/chest.txt" },
      { Event_Component.new with type := EC_REPEAT, s := "false" } ]
    outsideMapmod (by decide) (by decide) (by decide) (by decide)
  exact ⟨by decide, by decide, by decide, by decide, by decide, h.2.2.1⟩


/-! ## Loader: variadic keys -/

theorem repeatMapmod_tuples (c : LoadCollab) (ts : List (List String))
    (h : ∀ t ∈ ts, VariadicKey.wellFormed .mapmod t) :
    repeatMapmod c ts.flatten = (ts.map (VariadicKey.component c.toInt .mapmod), []) := by
  induction ts with
  | nil => rfl
  | cons t ts ih =>
    have ht := h t (List.mem_cons_self t ts)
    have hts := ih (fun u hu => h u (List.mem_cons_of_mem t hu))
    obtain ⟨hlen, hhead⟩ := ht
    match t, hlen with
    | [s, x, y, z], _ =>
      have hs : s ≠ "" := by simpa using hhead
      simp [repeatMapmod, hs, hts, VariadicKey.component, mapmodComponent]

theorem repeatSpawn_tuples (c : LoadCollab) (ts : List (List String))
    (h : ∀ t ∈ ts, VariadicKey.wellFormed .spawn t) :
    repeatSpawn c ts.flatten = (ts.map (VariadicKey.component c.toInt .spawn), []) := by
  induction ts with
  | nil => rfl
  | cons t ts ih =>
    have ht := h t (List.mem_cons_self t ts)
    have hts := ih (fun u hu => h u (List.mem_cons_of_mem t hu))
    obtain ⟨hlen, hhead⟩ := ht
    match t, hlen with
    | [s, x, y], _ =>
      have hs : s ≠ "" := by simpa using hhead
      simp [repeatSpawn, hs, hts, VariadicKey.component, spawnComponent]


theorem repeatOne_tuples (fill : String → Event_Component) (ts : List (List String))
    (h : ∀ t ∈ ts, t.length = 1 ∧ t.head? ≠ some "") :
    repeatOne fill ts.flatten = (ts.map (fun t => fill (t.getD 0 "")), []) := by
  induction ts with
  | nil => rfl
  | cons t ts ih =>
    have ht := h t (List.mem_cons_self t ts)
    have hts := ih (fun u hu => h u (List.mem_cons_of_mem t hu))
    obtain ⟨hlen, hhead⟩ := ht
    match t, hlen with
    | [v], _ =>
      have hv : v ≠ "" := by simpa using hhead
      simp [repeatOne, hv, hts]

/-- C5: loading a variadic key on an event target, with n >= 1 complete tuples
whose leading field is not empty, appends one component per tuple to the end
of the event's list, in the order written, each with the key's tag and its own
tuple's fields; the components already there and the other fields of the event
stay as they were. -/
theorem variadic_key_expands (c : LoadCollab) (k : VariadicKey) (tuples : List (List String))
    (errs : List String) (ev : Event) (ec : Option Event_Component)
    (hne : tuples ≠ []) (hwf : ∀ t ∈ tuples, k.wellFormed t) :
    (loadEvent c { key := k.name, vals := tuples.flatten, errors := errs } (some ev)).2 =
      some { ev with components := ev.components ++ tuples.map (k.component c.toInt) } ∧
    (loadEventComponent c { key := k.name, vals := tuples.flatten, errors := errs }
        (some ev) ec).2.1 =
      some { ev with components := ev.components ++ tuples.map (k.component c.toInt) } ∧
    (tuples.map (k.component c.toInt)).length = tuples.length ∧
    (∀ (i : Nat) (t : List String), tuples[i]? = some t →
      (tuples.map (k.component c.toInt))[i]? = some (k.component c.toInt t) ∧
      (k.component c.toInt t).type = k.tag) := by
  have hcomp : ∀ ec1 : Option Event_Component,
      (loadEventComponent c { key := k.name, vals := tuples.flatten, errors := errs }
        (some ev) ec1).2.1 =
      some { ev with components := ev.components ++ tuples.map (k.component c.toInt) } := by
    intro ec1
    match tuples, hne with
    | t :: ts, _ =>
      have ht := hwf t (List.mem_cons_self t ts)
      have hts : ∀ u ∈ ts, k.wellFormed u := fun u hu => hwf u (List.mem_cons_of_mem t hu)
      obtain ⟨hlen, -⟩ := ht
      cases k
      case mapmod =>
        match t, hlen with
        | [s, x, y, z], _ =>
          simp [loadEventComponent, parseComponent, VariadicKey.name, FileParser.nextValue,
            repeatMapmod_tuples c ts hts, VariadicKey.component, Event_Component.new]
      case spawn =>
        match t, hlen with
        | [s, x, y], _ =>
          simp [loadEventComponent, parseComponent, VariadicKey.name, FileParser.nextValue,
            repeatSpawn_tuples c ts hts, VariadicKey.component, Event_Component.new]
      all_goals
        match t, hlen with
        | [v], _ =>
          simp [loadEventComponent, parseComponent, parseRepeating, VariadicKey.name,
            FileParser.nextValue, repeatOne_tuples _ ts hts, VariadicKey.component,
            VariadicKey.tag, Event_Component.new]
  have hentry : (loadEvent c { key := k.name, vals := tuples.flatten, errors := errs }
      (some ev)).2 =
      (loadEventComponent c { key := k.name, vals := tuples.flatten, errors := errs }
        (some ev) none).2.1 := by
    cases k <;> simp [loadEvent, VariadicKey.name]
  refine ⟨by rw [hentry]; exact hcomp none, hcomp ec, by simp, ?_⟩
  · intro i t hi
    refine ⟨by simp [hi], ?_⟩
    cases k <;> rfl


theorem variadic_key_expands_witness :
    ([["water", "1", "2", "3"], ["lava", "4", "5", "6"]] : List (List String)) ≠ [] ∧
    (loadEventComponent sampleLoad
        { key := "mapmod", vals := ["water", "1", "2", "3", "lava", "4", "5", "6"], errors := [] }
        (some plainEvent) none).2.1 =
      some { plainEvent with components := plainEvent.components ++
        [ { Event_Component.new with type := EC_MAPMOD, s := "water", x := 1, y := 2, z := 3 },
          { Event_Component.new with type := EC_MAPMOD, s := "lava", x := 4, y := 5, z := 6 } ] } :=
  ⟨by decide,
    (variadic_key_expands sampleLoad VariadicKey.mapmod
      [["water", "1", "2", "3"], ["lava", "4", "5", "6"]] [] plainEvent none
      (by decide) (by decide)).2.1⟩

/-! ## Loader: clamped amounts -/

theorem clampFloor_eq_max (v f : Int) : clampFloor v f = max v f := by
  unfold clampFloor
  split
  · rw [max_eq_right (by omega)]
  · rw [max_eq_left (by omega)]

/-- C6: loading loot_count with the values min, max stores x = 0 and y = 0
when both are 0, and otherwise x = max(min, 1) and y = max(max, x), so that
1 <= x <= y; the pairs (0,0), (5,2) and (-3,10) are stored as (0,0), (5,5) and
(1,10).  The same component is stored on an event target (appended) and on a
component target (filled in place). -/
theorem loot_count_clamped (c : LoadCollab) (a b : String) (rest errs : List String)
    (ev : Event) (e0 : Event_Component) :
    (∃ e : Event_Component,
      (loadEventComponent c { key := "loot_count", vals := a :: b :: rest, errors := errs }
        (some ev) none).2.1 = some { ev with components := ev.components ++ [e] } ∧
      (loadEventComponent c { key := "loot_count", vals := a :: b :: rest, errors := errs }
        none (some e0)).2.2 = some { e0 with type := EC_LOOT_COUNT, x := e.x, y := e.y } ∧
      e.type = EC_LOOT_COUNT ∧
      (c.toInt a = 0 ∧ c.toInt b = 0 → e.x = 0 ∧ e.y = 0) ∧
      (¬ (c.toInt a = 0 ∧ c.toInt b = 0) →
        e.x = max (c.toInt a) 1 ∧ e.y = max (c.toInt b) e.x ∧ 1 ≤ e.x ∧ e.x ≤ e.y)) ∧
    (parseComponent sampleLoad true { key := "loot_count", vals := ["0", "0"], errors := [] }
        Event_Component.new).e = { Event_Component.new with type := EC_LOOT_COUNT, x := 0, y := 0 } ∧
    (parseComponent sampleLoad true { key := "loot_count", vals := ["5", "2"], errors := [] }
        Event_Component.new).e = { Event_Component.new with type := EC_LOOT_COUNT, x := 5, y := 5 } ∧
    (parseComponent sampleLoad true { key := "loot_count", vals := ["-3", "10"], errors := [] }
        Event_Component.new).e =
      { Event_Component.new with type := EC_LOOT_COUNT, x := 1, y := 10 } := by
  refine ⟨?_, by decide, by decide, by decide⟩
  by_cases h0 : c.toInt a = 0 ∧ c.toInt b = 0
  · refine ⟨{ Event_Component.new with type := EC_LOOT_COUNT, x := c.toInt a, y := c.toInt b },
      ?_, ?_, rfl, fun _ => h0, fun h => absurd h0 h⟩
    · simp [loadEventComponent, parseComponent, FileParser.nextValue, h0, Event_Component.new]
    · simp [loadEventComponent, parseComponent, FileParser.nextValue, h0]
  · have h1 : c.toInt a ≠ 0 ∨ c.toInt b ≠ 0 := by
      by_cases ha : c.toInt a = 0
      · exact Or.inr (fun hb => h0 ⟨ha, hb⟩)
      · exact Or.inl ha
    refine ⟨{ Event_Component.new with
        type := EC_LOOT_COUNT, x := clampFloor (c.toInt a) 1,
        y := clampFloor (c.toInt b) (clampFloor (c.toInt a) 1) },
      ?_, ?_, rfl, fun h => absurd h h0, fun _ => ?_⟩
    · simp [loadEventComponent, parseComponent, FileParser.nextValue, h1, Event_Component.new]
    · simp [loadEventComponent, parseComponent, FileParser.nextValue, h1]
    · rw [clampFloor_eq_max, clampFloor_eq_max]
      exact ⟨rfl, rfl, le_max_right _ _, le_max_right _ _⟩


/-- C7: loading remove_currency, reward_xp or reward_currency with the value v
stores x = max(v, 0), and loading reward_item with the values item, quantity
stores x = item and y = max(quantity, 0), on an event target (one component
appended) as on a component target (filled in place); the stored amount is
never negative. -/
theorem amounts_floored (c : LoadCollab) (vals errs : List String) (item quantity : String)
    (ev : Event) (e0 : Event_Component) :
    ((loadEventComponent c { key := "remove_currency", vals := vals, errors := errs }
        (some ev) none).2.1 =
      some { ev with components := ev.components ++
        [{ Event_Component.new with
            type := EC_REMOVE_CURRENCY, x := max (c.toInt (String.intercalate "," vals)) 0 }] } ∧
     (loadEventComponent c { key := "remove_currency", vals := vals, errors := errs }
        none (some e0)).2.2 =
      some { e0 with
        type := EC_REMOVE_CURRENCY, x := max (c.toInt (String.intercalate "," vals)) 0 }) ∧
    ((loadEventComponent c { key := "reward_xp", vals := vals, errors := errs }
        (some ev) none).2.1 =
      some { ev with components := ev.components ++
        [{ Event_Component.new with
            type := EC_REWARD_XP, x := max (c.toInt (String.intercalate "," vals)) 0 }] } ∧
     (loadEventComponent c { key := "reward_xp", vals := vals, errors := errs }
        none (some e0)).2.2 =
      some { e0 with type := EC_REWARD_XP, x := max (c.toInt (String.intercalate "," vals)) 0 }) ∧
    ((loadEventComponent c { key := "reward_currency", vals := vals, errors := errs }
        (some ev) none).2.1 =
      some { ev with components := ev.components ++
        [{ Event_Component.new with
            type := EC_REWARD_CURRENCY, x := max (c.toInt (String.intercalate "," vals)) 0 }] } ∧
     (loadEventComponent c { key := "reward_currency", vals := vals, errors := errs }
        none (some e0)).2.2 =
      some { e0 with
        type := EC_REWARD_CURRENCY, x := max (c.toInt (String.intercalate "," vals)) 0 }) ∧
    ((loadEventComponent c { key := "reward_item", vals := [item, quantity], errors := errs }
        (some ev) none).2.1 =
      some { ev with components := ev.components ++
        [{ Event_Component.new with
            type := EC_REWARD_ITEM, x := c.toInt item, y := max (c.toInt quantity) 0 }] } ∧
     (loadEventComponent c { key := "reward_item", vals := [item, quantity], errors := errs }
        none (some e0)).2.2 =
      some { e0 with
        type := EC_REWARD_ITEM, x := c.toInt item, y := max (c.toInt quantity) 0 }) ∧
    0 ≤ max (c.toInt (String.intercalate "," vals)) 0 ∧ 0 ≤ max (c.toInt quantity) 0 := by
  have hq : String.intercalate "," [quantity] = quantity := rfl
  refine ⟨⟨?_, ?_⟩, ⟨?_, ?_⟩, ⟨?_, ?_⟩, ⟨?_, ?_⟩, le_max_right _ _, le_max_right _ _⟩
  all_goals
    simp [loadEventComponent, parseComponent, FileParser.nextValue, FileParser.val,
      clampFloor_eq_max, Event_Component.new, hq]

/-! ## The state at a given iteration -/

/-- The payload of loot components aside, which the loop overwrites. -/
theorem norm_stamped (ev : Event) (ec : Event_Component) :
    lootless (stamped ev ec) = lootless ec := by
  unfold stamped lootless
  split <;> simp_all

theorem execUpTo_lootless (c : Collab) (k : Nat) (st : Event × World) :
    (execUpTo c k st).1.components.map lootless = st.1.components.map lootless := by
  induction k with
  | zero => rfl
  | succ k ih =>
    rw [execUpTo_succ, execComponent_components]
    cases h : (execUpTo c k st).1.components[k]? with
    | none => simpa using ih
    | some ec =>
      simp only
      rw [List.map_set, norm_stamped, ← ih]
      exact set_getElem?_self (by rw [List.getElem?_map, h]; rfl)

theorem find?_lootless (l1 l2 : List Event_Component) (ty : EVENT_COMPONENT_TYPE)
    (hty : ty ≠ EC_LOOT) (h : l1.map lootless = l2.map lootless) :
    l1.find? (fun x => decide (x.type = ty)) = l2.find? (fun x => decide (x.type = ty)) := by
  induction l1 generalizing l2 with
  | nil =>
    cases l2 with
    | nil => rfl
    | cons b t => simp at h
  | cons a t ih =>
    cases l2 with
    | nil => simp at h
    | cons b t2 =>
      simp only [List.map_cons, List.cons.injEq] at h
      obtain ⟨hab, ht⟩ := h
      have hta : a.type = b.type := by
        have := congrArg Event_Component.type hab
        unfold lootless at this
        split at this <;> split at this <;> simp_all
      by_cases ha : a.type = ty
      · have hb : b.type = ty := by rw [← hta]; exact ha
        have hna : a.type ≠ EC_LOOT := by rw [ha]; exact hty
        have hnb : b.type ≠ EC_LOOT := by rw [hb]; exact hty
        have : a = b := by
          unfold lootless at hab
          rw [if_neg hna, if_neg hnb] at hab
          exact hab
        simp [List.find?_cons, ha, hb, this]
      · have hb : ¬ b.type = ty := by rw [← hta]; exact ha
        simp [List.find?_cons, ha, hb, ih t2 ht]

/-- The lookups getComponent for a tag other than loot give, at every
iteration, what they give on the event as received. -/
theorem execState_getComponent (c : Collab) (ev : Event) (w : World) (k : Nat)
    (ty : EVENT_COMPONENT_TYPE) (hty : ty ≠ EC_LOOT) :
    (execState c ev w k).1.getComponent ty = ev.getComponent ty := by
  unfold Event.getComponent execState
  exact find?_lootless _ _ ty hty (execUpTo_lootless c k _)

theorem execState_fields (c : Collab) (ev : Event) (w : World) (k : Nat) :
    (execState c ev w k).1.activate_type = ev.activate_type ∧
    (execState c ev w k).1.location = ev.location ∧
    (execState c ev w k).1.hotspot = ev.hotspot := by
  have h := execUpTo_fields c k ({ ev with cooldown_ticks := ev.cooldown }, w)
  exact ⟨h.2.2.2.1, h.2.2.2.2.1, h.2.2.2.2.2.1⟩

/-- The iteration of index `i` runs the chain of tests on the component the
event held at index `i` when it was received. -/
theorem execState_step (c : Collab) (ev : Event) (w : World) (i : Nat)
    (ec : Event_Component) (hi : ev.components[i]? = some ec) :
    execState c ev w (i + 1) =
      execBranch c (execState c ev w i).1 (execState c ev w i).2 i ec := by
  have h := execState_getElem? c ev w i
  rw [hi] at h
  unfold execState at h ⊢
  rw [execUpTo_succ]
  unfold execComponent
  rw [h]

/-! ## Teleports -/

/-- C11: the iteration of an inter-map teleport component (map s, x, y) whose
map file resolves sets the teleportation flag, teleport_mapname = s and
teleport_destination = the tile centre of (x, y), and leaves the event, so
keep_after_trigger, as it was; when the file does not resolve it leaves the
three teleport fields as they were, sets keep_after_trigger to false and
log_msg to the localized "Unknown destination".  The iteration of an intra-map
teleport component always sets the flag, an empty teleport_mapname and the tile
centre of (x, y).  Nothing else of the event or the world changes.  The tile
centre is the pair of floats static_cast<float>(x) + 0.5f and
static_cast<float>(y) + 0.5f. -/
theorem teleport_effects (c : Collab) (ev : Event) (w : World) (i : Nat)
    (ec : Event_Component) (hcd : ev.cooldown_ticks ≤ 0)
    (hi : ev.components[i]? = some ec) :
    (executeEvent c ev w).2 = execState c ev w ev.components.length ∧
    (ec.type = EC_INTERMAP → c.fileExists ec.s = true →
      execState c ev w (i + 1) =
        ((execState c ev w i).1,
          { (execState c ev w i).2 with
            mapr := { (execState c ev w i).2.mapr with
              teleportation := true
              teleport_mapname := ec.s
              teleport_destination := { x := FVal.addHalf ec.x, y := FVal.addHalf ec.y } } })) ∧
    (ec.type = EC_INTERMAP → c.fileExists ec.s = false →
      execState c ev w (i + 1) =
        ({ (execState c ev w i).1 with keep_after_trigger := false },
          { (execState c ev w i).2 with
            mapr := { (execState c ev w i).2.mapr with
              log_msg := c.msgGet "Unknown destination" } })) ∧
    (ec.type = EC_INTRAMAP →
      execState c ev w (i + 1) =
        ((execState c ev w i).1,
          { (execState c ev w i).2 with
            mapr := { (execState c ev w i).2.mapr with
              teleportation := true
              teleport_mapname := ""
              teleport_destination := { x := FVal.addHalf ec.x, y := FVal.addHalf ec.y } } })) := by
  refine ⟨by rw [executeEvent_eq_execState c ev w hcd], ?_, ?_, ?_⟩
  · intro hty hex
    rw [execState_step c ev w i ec hi]
    unfold execBranch
    rw [hty]
    simp [hex, tileCenter]
  · intro hty hex
    rw [execState_step c ev w i ec hi]
    unfold execBranch
    rw [hty]
    simp [hex]
  · intro hty
    rw [execState_step c ev w i ec hi]
    unfold execBranch
    rw [hty]
    simp [tileCenter]

theorem teleport_effects_witness :
    teleportEvent.cooldown_ticks ≤ 0 ∧
    (execState sampleCollab teleportEvent sampleWorld 1).2.mapr.teleport_mapname = "maps/town.txt" ∧
    (execState sampleCollab teleportEvent sampleWorld 1).2.mapr.teleport_destination =
      { x := FVal.addHalf 3, y := FVal.addHalf 4 } ∧
    (execState sampleCollab teleportEvent sampleWorld 1).1.keep_after_trigger = true ∧
    (execState sampleCollab teleportEvent sampleWorld 2).1.keep_after_trigger = false ∧
    (execState sampleCollab teleportEvent sampleWorld 2).2.mapr.log_msg = "Unknown destination" ∧
    (execState sampleCollab teleportEvent sampleWorld 2).2.mapr.teleport_mapname = "maps/town.txt" ∧
    (execState sampleCollab teleportEvent sampleWorld 3).2.mapr.teleport_mapname = "" := by
  have h := teleport_effects sampleCollab teleportEvent sampleWorld 0
    { Event_Component.new with type := EC_INTERMAP, s := "maps/town.txt", x := 3, y := 4 }
    (by decide) (by decide)
  have h1 := h.2.1 (by decide) (by decide)
  refine ⟨by decide, ?_, ?_, ?_, by decide, by decide, by decide, by decide⟩
  · rw [h1]
  · rw [h1]
  · rw [h1]; decide

/-- C12, as the code has it: an event that is off cooldown and contains an
inter-map teleport component whose map file does not resolve ends with
keep_after_trigger false and executeEvent returns true, provided no repeat
component with a true payload comes after that component in the list. -/
theorem unresolved_teleport_consumes (c : Collab) (ev : Event) (w : World)
    (pre post : List Event_Component) (bad : Event_Component)
    (hcd : ev.cooldown_ticks ≤ 0) (hcomp : ev.components = pre ++ bad :: post)
    (hty : bad.type = EC_INTERMAP) (hmiss : c.fileExists bad.s = false)
    (hpost : ∀ ec ∈ post, ec.type = EC_REPEAT → c.toBool ec.s = false) :
    (executeEvent c ev w).2.1.keep_after_trigger = false ∧ (executeEvent c ev w).1 = true := by
  have hkeep : ∀ k, pre.length + 1 ≤ k →
      (execState c ev w k).1.keep_after_trigger = false := by
    intro k hk
    induction k with
    | zero => omega
    | succ k ih =>
      by_cases hkp : k = pre.length
      · have hlook : ev.components[k]? = some bad := by
          rw [hcomp, hkp, List.getElem?_append_right (le_refl _)]; simp
        rw [execState_step c ev w k bad hlook, execBranch_keep]
        simp [hty, hmiss]
      · have ih1 := ih (by omega)
        cases hlook : ev.components[k]? with
        | none =>
          have h := execState_getElem? c ev w k
          rw [hlook] at h
          unfold execState at h ih1 ⊢
          rw [execUpTo_succ]
          unfold execComponent
          rw [h]
          exact ih1
        | some ec =>
          have hmem : ec ∈ post := by
            rw [hcomp, List.getElem?_append_right (by omega)] at hlook
            have : k - pre.length = (k - pre.length - 1) + 1 := by omega
            rw [this, List.getElem?_cons_succ] at hlook
            exact List.getElem?_mem hlook
          rw [execState_step c ev w k ec hlook, execBranch_keep]
          by_cases hr : ec.type = EC_REPEAT
          · simp [hr, hpost ec hmem hr]
          · simp [hr, ih1]
  rw [executeEvent_eq_execState c ev w hcd]
  have := hkeep ev.components.length (by rw [hcomp]; simp)
  simp [this]

theorem unresolved_teleport_consumes_witness :
    teleportEvent.cooldown_ticks ≤ 0 ∧
    (executeEvent sampleCollab teleportEvent sampleWorld).2.1.keep_after_trigger = false ∧
    (executeEvent sampleCollab teleportEvent sampleWorld).1 = true :=
  ⟨by decide,
    unresolved_teleport_consumes sampleCollab teleportEvent sampleWorld
      [{ Event_Component.new with type := EC_INTERMAP, s := "maps/town.txt", x := 3, y := 4 }]
      [{ Event_Component.new with type := EC_INTRAMAP, x := 7, y := 8 }]
      { Event_Component.new with type := EC_INTERMAP, s := "maps/missing.txt", x := 1, y := 1 }
      (by decide) (by decide) (by decide) (by decide) (by decide)⟩

/-- C12 fails as stated: an event that is off cooldown whose unresolvable
inter-map teleport is followed by a repeat component with payload true ends
with keep_after_trigger true, and executeEvent returns false. -/
theorem unresolved_teleport_rearmed :
    rearmedEvent.cooldown_ticks ≤ 0 ∧
    (∃ ec ∈ rearmedEvent.components,
      ec.type = EC_INTERMAP ∧ sampleCollab.fileExists ec.s = false) ∧
    (executeEvent sampleCollab rearmedEvent sampleWorld).2.1.keep_after_trigger = true ∧
    (executeEvent sampleCollab rearmedEvent sampleWorld).1 = false := by
  decide

/-! ## The keep_after_trigger flag -/

theorem loadEvent_some (c : LoadCollab) (infile : FileParser) (ev : Event) :
    ∃ ev1, (loadEvent c infile (some ev)).2 = some ev1 ∧
      (ev1.keep_after_trigger = true → ev.keep_after_trigger = true) := by
  unfold loadEvent
  simp only
  split_ifs <;> exact ⟨_, rfl, fun h => by first | exact h | simp at h⟩

theorem loadEvents_keep_false (c : LoadCollab) (lines : List FileParser) (ev : Event)
    (h : ev.keep_after_trigger = false) :
    ∃ ev1, loadEvents c lines (some ev) = some ev1 ∧ ev1.keep_after_trigger = false := by
  induction lines generalizing ev with
  | nil => exact ⟨ev, rfl, h⟩
  | cons f t ih =>
    obtain ⟨ev1, h1, h2⟩ := loadEvent_some c f ev
    have hk : ev1.keep_after_trigger = false := by
      cases hb : ev1.keep_after_trigger with
      | false => rfl
      | true => rw [h2 hb] at h; exact absurd h (by decide)
    obtain ⟨ev2, h3, h4⟩ := ih ev1 hk
    refine ⟨ev2, ?_, h4⟩
    unfold loadEvents at h3 ⊢
    rw [List.foldl_cons, h1]
    exact h3

/-- C13: a fresh event has keep_after_trigger = true; loading activate with
on_load or on_clear sets it to false, with on_trigger, on_mapexit or on_leave
leaves it as it is; no loadEvent call turns a false keep_after_trigger into
true; so once activate on_load is loaded the flag is false after any further
sequence of keys, a repeat key included, which only appends a component. -/
theorem keep_after_trigger_loading (c : LoadCollab) (ev : Event) (errs : List String) :
    Event.new.keep_after_trigger = true ∧
    (loadEvent c { key := "activate", vals := ["on_load"], errors := errs } (some ev)).2 =
      some { ev with activate_type := EVENT_ON_LOAD, keep_after_trigger := false } ∧
    (loadEvent c { key := "activate", vals := ["on_clear"], errors := errs } (some ev)).2 =
      some { ev with activate_type := EVENT_ON_CLEAR, keep_after_trigger := false } ∧
    (loadEvent c { key := "activate", vals := ["on_trigger"], errors := errs } (some ev)).2 =
      some { ev with activate_type := EVENT_ON_TRIGGER } ∧
    (loadEvent c { key := "activate", vals := ["on_mapexit"], errors := errs } (some ev)).2 =
      some { ev with activate_type := EVENT_ON_MAPEXIT } ∧
    (loadEvent c { key := "activate", vals := ["on_leave"], errors := errs } (some ev)).2 =
      some { ev with activate_type := EVENT_ON_LEAVE } ∧
    (∀ infile : FileParser, ∃ ev1, (loadEvent c infile (some ev)).2 = some ev1 ∧
      (ev1.keep_after_trigger = true → ev.keep_after_trigger = true)) ∧
    (∀ lines : List FileParser, ∃ ev1,
      loadEvents c ({ key := "activate", vals := ["on_load"], errors := errs } :: lines)
        (some ev) = some ev1 ∧ ev1.keep_after_trigger = false) ∧
    (∀ vals : List String,
      (loadEvent c { key := "repeat", vals := vals, errors := errs } (some ev)).2 =
        some { ev with components := ev.components ++
          [{ Event_Component.new with type := EC_REPEAT, s := String.intercalate "," vals }] }) ∧
    (loadEvents sampleLoad onLoadLines (some Event.new)).map (fun e => e.keep_after_trigger) =
      some false := by
  have hv : ∀ s : String, String.intercalate "," [s] = s := fun s => rfl
  refine ⟨rfl, ?_, ?_, ?_, ?_, ?_, fun infile => loadEvent_some c infile ev, ?_, ?_, by decide⟩
  · simp [loadEvent, FileParser.val, hv]
  · simp [loadEvent, FileParser.val, hv]
  · simp [loadEvent, FileParser.val, hv]
  · simp [loadEvent, FileParser.val, hv]
  · simp [loadEvent, FileParser.val, hv]
  · intro lines
    have h1 : (loadEvent c { key := "activate", vals := ["on_load"], errors := errs }
        (some ev)).2 =
        some { ev with activate_type := EVENT_ON_LOAD, keep_after_trigger := false } := by
      simp [loadEvent, FileParser.val, hv]
    obtain ⟨ev2, h3, h4⟩ := loadEvents_keep_false c lines
      { ev with activate_type := EVENT_ON_LOAD, keep_after_trigger := false } rfl
    refine ⟨ev2, ?_, h4⟩
    unfold loadEvents at h3 ⊢
    rw [List.foldl_cons, h1]
    exact h3
  · intro vals
    simp [loadEvent, loadEventComponent, parseComponent, FileParser.val, Event_Component.new]

/-- C14: an event that is off cooldown and whose last component is a repeat
component ends with keep_after_trigger equal to that component's boolean
payload b, and executeEvent returns not b, whatever the flag was before and
whatever the earlier components did. -/
theorem repeat_last_decides (c : Collab) (ev : Event) (w : World)
    (pre : List Event_Component) (last : Event_Component)
    (hcd : ev.cooldown_ticks ≤ 0) (hcomp : ev.components = pre ++ [last])
    (hty : last.type = EC_REPEAT) :
    (executeEvent c ev w).2.1.keep_after_trigger = c.toBool last.s ∧
    (executeEvent c ev w).1 = !c.toBool last.s := by
  have hlook : ev.components[pre.length]? = some last := by
    rw [hcomp, List.getElem?_append_right (le_refl _)]; simp
  have hlen : ev.components.length = pre.length + 1 := by rw [hcomp]; simp
  rw [executeEvent_eq_execState c ev w hcd, hlen, execState_step c ev w pre.length last hlook,
    execBranch_keep]
  simp [hty]

theorem repeat_last_decides_witness :
    repeatLastEvent.cooldown_ticks ≤ 0 ∧ repeatLastEvent.keep_after_trigger = false ∧
    (executeEvent sampleCollab repeatLastEvent sampleWorld).2.1.keep_after_trigger = true ∧
    (executeEvent sampleCollab repeatLastEvent sampleWorld).1 = false := by
  have h := repeat_last_decides sampleCollab repeatLastEvent sampleWorld
    [{ Event_Component.new with type := EC_INTERMAP, s := "maps/missing.txt", x := 1, y := 1 }]
    { Event_Component.new with type := EC_REPEAT, s := "true" }
    (by decide) (by decide) (by decide)
  exact ⟨by decide, by decide, h.1, h.2⟩

/-! ## Campaign calls and loot -/

theorem execMapmod_calls (c : Collab) (ec : Event_Component) (w : World) :
    (execMapmod c ec w).calls = w.calls := by
  unfold execMapmod
  split
  · split <;> rfl
  · simp only
    split
    · rfl
    · split
      · rfl
      · split <;> rfl

theorem execBranch_campaign (c : Collab) (ev : Event) (w : World) (i : Nat)
    (ec : Event_Component) :
    (execBranch c ev w i ec).2.calls.filter isCampaign =
      w.calls.filter isCampaign ++ (campCall ec).toList := by
  by_cases hm : ec.type = EC_MAPMOD
  · have h1 : execBranch c ev w i ec = (ev, execMapmod c ec w) := by
      unfold execBranch; rw [hm]
    rw [h1]
    simp [execMapmod_calls, campCall, hm]
  · rcases ec with ⟨ty, s, x, y, z, a, b⟩
    cases ty <;> first
      | exact absurd rfl hm
      | simp [execBranch, World.call, campCall, isCampaign, List.filter_append]
    all_goals split <;> simp

theorem execBranch_inert (c : Collab) (ev : Event) (w : World) (i : Nat)
    (ec : Event_Component) (h : inertKind ec.type = true) :
    execBranch c ev w i ec = (ev, w) := by
  rcases ec with ⟨ty, s, x, y, z, a, b⟩
  cases ty <;> first | rfl | simp [inertKind] at h

theorem execState_campaign (c : Collab) (ev : Event) (w : World) (k : Nat) :
    (execState c ev w k).2.calls.filter isCampaign =
      w.calls.filter isCampaign ++ (ev.components.take k).filterMap campCall := by
  induction k with
  | zero => simp [execState, execUpTo_zero]
  | succ k ih =>
    cases hlook : ev.components[k]? with
    | none =>
      have h := execState_getElem? c ev w k
      rw [hlook] at h
      have hst : execState c ev w (k + 1) = execState c ev w k := by
        unfold execState at h ⊢
        rw [execUpTo_succ]
        unfold execComponent
        rw [h]
      rw [hst, ih, List.take_succ, hlook]
      simp
    | some ec =>
      rw [execState_step c ev w k ec hlook, execBranch_campaign, ih, List.take_succ, hlook]
      cases hcc : campCall ec <;> simp [List.filterMap_append, List.filterMap_cons, hcc]

/-- C15: for an event that is off cooldown, the campaign calls executeEvent
makes (setStatus, unsetStatus, removeCurrency, removeItem, rewardXP,
rewardCurrency, rewardItem, restoreHPMP) are, in order, one call per component
of those eight kinds with that component's payload; and the iteration of a
requirement, tooltip, power_path, power_damage, loot_count or none component
leaves the event and the world as they are. -/
theorem campaign_calls_in_order (c : Collab) (ev : Event) (w : World)
    (hcd : ev.cooldown_ticks ≤ 0) :
    (executeEvent c ev w).2.2.calls.filter isCampaign =
      w.calls.filter isCampaign ++ ev.components.filterMap campCall ∧
    (∀ (i : Nat) (ec : Event_Component), ev.components[i]? = some ec →
      inertKind ec.type = true → execState c ev w (i + 1) = execState c ev w i) := by
  constructor
  · rw [executeEvent_eq_execState c ev w hcd]
    simp only
    rw [execState_campaign, List.take_length]
  · intro i ec hi hin
    rw [execState_step c ev w i ec hi, execBranch_inert c _ _ i ec hin]

theorem campaign_calls_in_order_witness :
    bossEvent.cooldown_ticks ≤ 0 ∧
    (executeEvent sampleCollab bossEvent sampleWorld).2.2.calls = [Call.rewardXP 100 true] ∧
    (executeEvent sampleCollab bossEvent sampleWorld).2.2.calls.filter isCampaign =
      [Call.rewardXP 100 true] ∧
    (executeEvent sampleCollab bossEvent sampleWorld).2.1.cooldown_ticks = 60 ∧
    (executeEvent sampleCollab bossEvent sampleWorld).2.2.mapr = sampleMap :=
  ⟨by decide, by decide,
    (campaign_calls_in_order sampleCollab bossEvent sampleWorld (by decide)).1,
    by decide, by decide⟩

/-- C16: in an event that is off cooldown, the iteration of a loot component
sets the map's pending loot_count to the (x, y) of the first loot_count
component of the event, wherever it stands in the list, or to (0, 0) when the
event has none, and appends to the map's pending loot list one copy of the
loot component with x and y set to the hotspot's x and y. -/
theorem loot_effects (c : Collab) (ev : Event) (w : World) (i : Nat)
    (ec : Event_Component) (hcd : ev.cooldown_ticks ≤ 0)
    (hi : ev.components[i]? = some ec) (hty : ec.type = EC_LOOT) :
    (executeEvent c ev w).2 = execState c ev w ev.components.length ∧
    (execState c ev w (i + 1)).2.mapr.loot_count =
      (match ev.components.find? (fun e => decide (e.type = EC_LOOT_COUNT)) with
        | some lc => { x := lc.x, y := lc.y }
        | none => { x := 0, y := 0 }) ∧
    (execState c ev w (i + 1)).2.mapr.loot =
      (execState c ev w i).2.mapr.loot ++ [{ ec with x := ev.hotspot.x, y := ev.hotspot.y }] := by
  refine ⟨by rw [executeEvent_eq_execState c ev w hcd], ?_, ?_⟩
  · have hg := execState_getComponent c ev w i EC_LOOT_COUNT (by decide)
    rw [execState_step c ev w i ec hi]
    unfold execBranch
    rw [hty]
    simp only
    rw [hg]
    rfl
  · have hf := (execState_fields c ev w i).2.2
    rw [execState_step c ev w i ec hi]
    unfold execBranch
    rw [hty]
    simp only
    rw [hf]

theorem loot_effects_witness :
    lootEvent.cooldown_ticks ≤ 0 ∧
    (execState sampleCollab lootEvent sampleWorld 1).2.mapr.loot_count = { x := 2, y := 5 } ∧
    (execState sampleCollab lootEvent sampleWorld 1).2.mapr.loot =
      [{ Event_Component.new with
          type := EC_LOOT, s := "loot/chest.txt", a := 2, b := 3, x := 4, y := 6 }] := by
  have h := loot_effects sampleCollab lootEvent sampleWorld 0
    { Event_Component.new with type := EC_LOOT, s := "loot/chest.txt", a := 2, b := 3 }
    (by decide) (by decide) (by decide)
  refine ⟨by decide, ?_, ?_⟩
  · rw [h.2.1]; decide
  · rw [h.2.2]; decide

/-! ## Deleting components -/

/-- C17 fails on the code: after deleteAllComponents(EC_TOOLTIP) on the list
[tooltip a, tooltip b, msg c] the list is [tooltip b, msg c], which still holds
a tooltip component: the component that follows an erased one is stepped over. -/
theorem deleteAllComponents_leaves_one :
    (twoTooltips.deleteAllComponents EC_TOOLTIP).map (fun e => e.components) =
      some [ { Event_Component.new with type := EC_TOOLTIP, s := "b" },
             { Event_Component.new with type := EC_MSG, s := "c" } ] ∧
    ∃ ev1, twoTooltips.deleteAllComponents EC_TOOLTIP = some ev1 ∧
      ∃ ec ∈ ev1.components, ec.type = EC_TOOLTIP := by
  refine ⟨by decide, { twoTooltips with components :=
    [ { Event_Component.new with type := EC_TOOLTIP, s := "b" },
      { Event_Component.new with type := EC_MSG, s := "c" } ] }, by decide, by decide⟩

/-! ## What executeEvent changes of the event -/

theorem execUpTo_getElem? (c : Collab) (k : Nat) (st : Event × World) (j : Nat) :
    (execUpTo c k st).1.components[j]? =
      (st.1.components[j]?).map (fun ec => if j < k then stamped st.1 ec else ec) := by
  induction k with
  | zero => simp [execUpTo_zero]
  | succ k ih =>
    have ihk := execUpTo_getElem?_ge c k st k (le_refl k)
    have hhot : (execUpTo c k st).1.hotspot = st.1.hotspot :=
      (execUpTo_fields c k st).2.2.2.2.2.1
    rw [execUpTo_succ, execComponent_components]
    cases h : (execUpTo c k st).1.components[k]? with
    | none =>
      simp only
      by_cases hjk : j = k
      · subst hjk
        rw [h]; rw [h] at ihk; rw [← ihk]; rfl
      · rw [ih]
        have : (j < k + 1) = (j < k) := by
          apply propext; constructor <;> intro <;> omega
        simp only [this]
    | some ec =>
      simp only
      by_cases hjk : j = k
      · subst hjk
        have hlt : j < (execUpTo c j st).1.components.length := by
          rcases List.getElem?_eq_some.mp h with ⟨hlt, _⟩; exact hlt
        rw [List.getElem?_set_self hlt, ← ihk, h]
        simp [stamped_congr _ _ ec hhot]
      · rw [List.getElem?_set_ne (fun h => hjk h.symm), ih]
        have : (j < k + 1) = (j < k) := by
          apply propext; constructor <;> intro <;> omega
        simp only [this]

/-- C18, as the code has it: executeEvent changes no field of the event other
than cooldown_ticks, keep_after_trigger and the x and y of its loot components,
which an executed event has set to the hotspot's x and y.  The length and order
of the component list, every tag, every component that is not a loot component,
and location, hotspot, center, cooldown, activate_type, type and reachable_from
are the same after the call as before. -/
theorem executeEvent_frame (c : Collab) (ev : Event) (w : World) :
    (executeEvent c ev w).2.1.type = ev.type ∧
    (executeEvent c ev w).2.1.activate_type = ev.activate_type ∧
    (executeEvent c ev w).2.1.location = ev.location ∧
    (executeEvent c ev w).2.1.hotspot = ev.hotspot ∧
    (executeEvent c ev w).2.1.center = ev.center ∧
    (executeEvent c ev w).2.1.cooldown = ev.cooldown ∧
    (executeEvent c ev w).2.1.reachable_from = ev.reachable_from ∧
    (executeEvent c ev w).2.1.components =
      (if ev.cooldown_ticks > 0 then ev.components
       else ev.components.map (fun ec =>
        if ec.type = EC_LOOT then { ec with x := ev.hotspot.x, y := ev.hotspot.y } else ec)) ∧
    (executeEvent c ev w).2.1.components.length = ev.components.length ∧
    (executeEvent c ev w).2.1.components.map (fun ec => ec.type) =
      ev.components.map (fun ec => ec.type) ∧
    (∀ (i : Nat) (ec : Event_Component), ev.components[i]? = some ec → ec.type ≠ EC_LOOT →
      (executeEvent c ev w).2.1.components[i]? = some ec) := by
  by_cases hcd : ev.cooldown_ticks > 0
  · have hex : executeEvent c ev w = (false, ev, w) := by simp [executeEvent, hcd]
    rw [hex, if_pos hcd]
    exact ⟨rfl, rfl, rfl, rfl, rfl, rfl, rfl, rfl, rfl, rfl, fun i ec hi _ => hi⟩
  · have hle : ev.cooldown_ticks ≤ 0 := not_lt.mp hcd
    rw [executeEvent_eq_execState c ev w hle]
    simp only [if_neg hcd]
    have hf := execUpTo_fields c ev.components.length
      ({ ev with cooldown_ticks := ev.cooldown }, w)
    have hcomp : (execState c ev w ev.components.length).1.components =
        ev.components.map (fun ec =>
          if ec.type = EC_LOOT then { ec with x := ev.hotspot.x, y := ev.hotspot.y } else ec) := by
      apply List.ext_getElem?
      intro j
      unfold execState
      rw [execUpTo_getElem?, List.getElem?_map]
      cases hj : ev.components[j]? with
      | none => simp [hj]
      | some ec =>
        have hlt : j < ev.components.length := by
          rcases List.getElem?_eq_some.mp hj with ⟨hlt, _⟩; exact hlt
        simp [hj, hlt, stamped]
    refine ⟨hf.2.2.1, hf.2.2.2.1, hf.2.2.2.2.1, hf.2.2.2.2.2.1, hf.2.2.2.2.2.2.1, hf.2.1,
      hf.2.2.2.2.2.2.2, hcomp, ?_, ?_, ?_⟩
    · rw [hcomp, List.length_map]
    · exact execUpTo_types c _ _
    · intro i ec hi hne
      rw [hcomp, List.getElem?_map, hi]
      simp [hne]

/-- C18 fails as stated: executing an event with hotspot (4, 6) rewrites the x
and y of its loot component, so the component list after the call differs from
the list before. -/
theorem executeEvent_rewrites_loot :
    (executeEvent sampleCollab lootEvent sampleWorld).2.1.components ≠ lootEvent.components ∧
    (executeEvent sampleCollab lootEvent sampleWorld).2.1.components[0]? =
      some { Event_Component.new with
        type := EC_LOOT, s := "loot/chest.txt", a := 2, b := 3, x := 4, y := 6 } ∧
    lootEvent.components[0]? =
      some { Event_Component.new with
        type := EC_LOOT, s := "loot/chest.txt", a := 2, b := 3, x := 0, y := 0 } := by
  decide

/-! ## Sound effects and powers -/

theorem execMapmod_cam (c : Collab) (ec : Event_Component) (w : World) :
    (execMapmod c ec w).mapr.cam = w.mapr.cam := by
  unfold execMapmod
  split
  · split <;> rfl
  · simp only
    split
    · rfl
    · split
      · rfl
      · split <;> rfl

theorem execBranch_cam (c : Collab) (ev : Event) (w : World) (i : Nat)
    (ec : Event_Component) : (execBranch c ev w i ec).2.mapr.cam = w.mapr.cam := by
  by_cases hm : ec.type = EC_MAPMOD
  · have h1 : execBranch c ev w i ec = (ev, execMapmod c ec w) := by
      unfold execBranch; rw [hm]
    rw [h1]; exact execMapmod_cam c ec w
  · rcases ec with ⟨ty, s, x, y, z, a, b⟩
    cases ty <;> first | exact absurd rfl hm | simp [execBranch, World.call]
    all_goals split <;> simp

theorem execState_cam (c : Collab) (ev : Event) (w : World) (k : Nat) :
    (execState c ev w k).2.mapr.cam = w.mapr.cam := by
  induction k with
  | zero => rfl
  | succ k ih =>
    unfold execState at ih ⊢
    rw [execUpTo_succ]
    unfold execComponent
    split
    · exact ih
    · rw [execBranch_cam]; exact ih

/-- C19, as the code has it: the iteration of a sound-effect component loads
the sound, plays it and registers its id, at a position that is the tile
centre of (x, y) when the component carries a position (x and y both other
than -1) with x and y both nonzero; the origin when it carries a position with
x or y zero, whatever the event's location; and, when it carries no position
(x or y is -1), the tile centre of the event's location when location.x and
location.y are both nonzero, the origin otherwise.  The loop flag passed is true
when the event's activation is on_load and is otherwise the component's loop
payload (z nonzero). -/
theorem soundfx_effects (c : Collab) (ev : Event) (w : World) (i : Nat)
    (ec : Event_Component) (hcd : ev.cooldown_ticks ≤ 0)
    (hi : ev.components[i]? = some ec) (hty : ec.type = EC_SOUNDFX) :
    (executeEvent c ev w).2 = execState c ev w ev.components.length ∧
    ∃ (pos : FPoint) (loop : Bool),
      (execState c ev w (i + 1)).2.calls =
        (execState c ev w i).2.calls ++
          [Call.sndLoad ec.s "MapRenderer background soundfx",
           Call.sndPlay (c.sndLoad ec.s) pos loop] ∧
      (execState c ev w (i + 1)).2.mapr.sids =
        (execState c ev w i).2.mapr.sids ++ [c.sndLoad ec.s] ∧
      (ec.x ≠ -1 ∧ ec.y ≠ -1 ∧ ec.x ≠ 0 ∧ ec.y ≠ 0 →
        pos = { x := FVal.addHalf ec.x, y := FVal.addHalf ec.y }) ∧
      (ec.x ≠ -1 ∧ ec.y ≠ -1 ∧ (ec.x = 0 ∨ ec.y = 0) →
        pos = { x := FVal.ofInt 0, y := FVal.ofInt 0 }) ∧
      ((ec.x = -1 ∨ ec.y = -1) ∧ ev.location.x ≠ 0 ∧ ev.location.y ≠ 0 →
        pos = { x := FVal.addHalf ev.location.x, y := FVal.addHalf ev.location.y }) ∧
      ((ec.x = -1 ∨ ec.y = -1) ∧ (ev.location.x = 0 ∨ ev.location.y = 0) →
        pos = { x := FVal.ofInt 0, y := FVal.ofInt 0 }) ∧
      (ev.activate_type = EVENT_ON_LOAD → loop = true) ∧
      (ev.activate_type ≠ EVENT_ON_LOAD → loop = decide (ec.z ≠ 0)) := by
  refine ⟨by rw [executeEvent_eq_execState c ev w hcd], ?_⟩
  obtain ⟨hact, hloc, _⟩ := execState_fields c ev w i
  refine ⟨soundPos (execState c ev w i).1 ec,
    decide ((execState c ev w i).1.activate_type = EVENT_ON_LOAD) || decide (ec.z ≠ 0),
    ?_, ?_, ?_, ?_, ?_, ?_, ?_, ?_⟩
  · rw [execState_step c ev w i ec hi]
    unfold execBranch
    rw [hty]
    simp [World.call]
  · rw [execState_step c ev w i ec hi]
    unfold execBranch
    rw [hty]
    simp [World.call]
  · rintro ⟨h1, h2, h3, h4⟩
    simp [soundPos, h1, h2, h3, h4, tileCenter]
  · rintro ⟨h1, h2, h3⟩
    have : ¬ (ec.x ≠ 0 ∧ ec.y ≠ 0) := by
      rintro ⟨h4, h5⟩; rcases h3 with h3 | h3 <;> contradiction
    unfold soundPos
    rw [if_pos ⟨h1, h2⟩, if_neg this]
  · rintro ⟨h1, h2, h3⟩
    have : ¬ (ec.x ≠ -1 ∧ ec.y ≠ -1) := by
      rintro ⟨h4, h5⟩; rcases h1 with h1 | h1 <;> contradiction
    unfold soundPos
    rw [if_neg this, hloc, if_pos ⟨h2, h3⟩]
    rfl
  · rintro ⟨h1, h2⟩
    have : ¬ (ec.x ≠ -1 ∧ ec.y ≠ -1) := by
      rintro ⟨h4, h5⟩; rcases h1 with h1 | h1 <;> contradiction
    have h3 : ¬ (ev.location.x ≠ 0 ∧ ev.location.y ≠ 0) := by
      rintro ⟨h4, h5⟩; rcases h2 with h2 | h2 <;> contradiction
    unfold soundPos
    rw [if_neg this, hloc, if_neg h3]
  · intro h
    rw [hact]; simp [h]
  · intro h
    rw [hact]; simp [h]

theorem soundfx_effects_witness :
    unsetSoundEvent.cooldown_ticks ≤ 0 ∧
    (executeEvent sampleCollab unsetSoundEvent sampleWorld).2.2.calls =
      [Call.sndLoad "sfx.ogg" "MapRenderer background soundfx",
       Call.sndPlay 7 { x := FVal.addHalf 3, y := FVal.addHalf 4 } false] ∧
    (executeEvent sampleCollab unsetSoundEvent sampleWorld).2 =
      execState sampleCollab unsetSoundEvent sampleWorld 1 :=
  ⟨by decide, by decide,
    (soundfx_effects sampleCollab unsetSoundEvent sampleWorld 0
      { Event_Component.new with type := EC_SOUNDFX, s := "sfx.ogg", x := -1, y := -1 }
      (by decide) (by decide) (by decide)).1⟩

/-- C19 fails as stated: a sound effect that carries the explicit position
(0, 0), in an event located at tile (3, 4), is played at the origin and not at
the centre of the event's location: a zero position does not fall back to the
location. -/
theorem soundfx_zero_position_no_fallback :
    zeroSoundEvent.cooldown_ticks ≤ 0 ∧
    zeroSoundEvent.location.x ≠ 0 ∧ zeroSoundEvent.location.y ≠ 0 ∧
    (executeEvent sampleCollab zeroSoundEvent sampleWorld).2.2.calls =
      [Call.sndLoad "sfx.ogg" "MapRenderer background soundfx",
       Call.sndPlay 7 { x := FVal.ofInt 0, y := FVal.ofInt 0 } false] ∧
    (executeEvent sampleCollab zeroSoundEvent sampleWorld).2.2.calls ≠
      [Call.sndLoad "sfx.ogg" "MapRenderer background soundfx",
       Call.sndPlay 7 { x := FVal.addHalf 3, y := FVal.addHalf 4 } false] := by
  decide

/-- C20: the iteration of an activate-power component calls the power
activation with the component's x as power id and a target that is the camera
position (the player's) when the event's first power_path component has the
string payload "hero", the tile centre of (a, b) of the first power_path
component when there is one and its payload is not "hero", and the tile centre
of the event's location when the event has no power_path component. -/
theorem power_target (c : Collab) (ev : Event) (w : World) (i : Nat)
    (ec : Event_Component) (hcd : ev.cooldown_ticks ≤ 0)
    (hi : ev.components[i]? = some ec) (hty : ec.type = EC_POWER) :
    (executeEvent c ev w).2 = execState c ev w ev.components.length ∧
    ∃ target : FPoint,
      (execState c ev w (i + 1)).2.calls =
        (execState c ev w i).2.calls ++ [Call.activatePower ec.x ec.y target] ∧
      (∀ p, ev.components.find? (fun e => decide (e.type = EC_POWER_PATH)) = some p →
        p.s = "hero" → target = w.mapr.cam) ∧
      (∀ p, ev.components.find? (fun e => decide (e.type = EC_POWER_PATH)) = some p →
        p.s ≠ "hero" → target = { x := FVal.addHalf p.a, y := FVal.addHalf p.b }) ∧
      (ev.components.find? (fun e => decide (e.type = EC_POWER_PATH)) = none →
        target = { x := FVal.addHalf ev.location.x, y := FVal.addHalf ev.location.y }) := by
  refine ⟨by rw [executeEvent_eq_execState c ev w hcd], ?_⟩
  obtain ⟨_, hloc, _⟩ := execState_fields c ev w i
  have hg := execState_getComponent c ev w i EC_POWER_PATH (by decide)
  have hcam := execState_cam c ev w i
  refine ⟨powerTarget (execState c ev w i).1 (execState c ev w i).2.mapr, ?_, ?_, ?_, ?_⟩
  · rw [execState_step c ev w i ec hi]
    unfold execBranch
    rw [hty]
    simp [World.call]
  · intro p hp hs
    unfold powerTarget
    rw [hg]
    unfold Event.getComponent
    rw [hp]
    simp [hs, hcam]
  · intro p hp hs
    unfold powerTarget
    rw [hg]
    unfold Event.getComponent
    rw [hp]
    simp [hs, tileCenter]
  · intro hp
    unfold powerTarget
    rw [hg]
    unfold Event.getComponent
    rw [hp]
    simp [hloc, tileCenter]

theorem power_target_witness :
    powerEvent.cooldown_ticks ≤ 0 ∧
    (executeEvent sampleCollab powerEvent sampleWorld).2.2.calls =
      [Call.activatePower 12 0 { x := FVal.addHalf 5, y := FVal.addHalf 6 }] ∧
    (executeEvent sampleCollab powerEvent sampleWorld).2 =
      execState sampleCollab powerEvent sampleWorld 2 :=
  ⟨by decide, by decide,
    (power_target sampleCollab powerEvent sampleWorld 0
      { Event_Component.new with type := EC_POWER, x := 12 }
      (by decide) (by decide) (by decide)).1⟩

/-! ## Loader: the derived centre -/

theorem rect_val_ne_location (x y w h : String) :
    String.intercalate "," [x, y, w, h] ≠ "location" := by
  intro heq
  have hmem : ',' ∈ (String.intercalate "," [x, y, w, h]).data := by
    simp [String.intercalate, String.intercalate.go]
  rw [heq] at hmem
  exact absurd hmem (by decide)

theorem loadEvents_append (c : LoadCollab) (l1 l2 : List FileParser) (e : Option Event) :
    loadEvents c (l1 ++ l2) e = loadEvents c l2 (loadEvents c l1 e) := by
  simp [loadEvents, List.foldl_append]

theorem loadEvents_some (c : LoadCollab) (lines : List FileParser) (ev : Event) :
    ∃ ev1, loadEvents c lines (some ev) = some ev1 := by
  induction lines generalizing ev with
  | nil => exact ⟨ev, rfl⟩
  | cons f t ih =>
    obtain ⟨ev1, h1, _⟩ := loadEvent_some c f ev
    obtain ⟨ev2, h2⟩ := ih ev1
    refine ⟨ev2, ?_⟩
    unfold loadEvents at h2 ⊢
    rw [List.foldl_cons, h1]
    exact h2

/-- C21, as the code has it: a hotspot key always sets center to the midpoint
(x + w/2, y + h/2) of the rectangle it assigns to the hotspot, `hotspot:
location` assigning the location rectangle; a location key sets center to the
midpoint of the location rectangle only while center is still (-1, -1), as on
a fresh event, and otherwise leaves center as it was.  So after any sequence of
keys that ends with a hotspot key the center is the midpoint of the hotspot,
and after a single location key on a fresh event it is the midpoint of the
location. -/
theorem center_derivation (c : LoadCollab) (ev : Event) (x y w h : String)
    (errs : List String) :
    (loadEvent c { key := "hotspot", vals := [x, y, w, h], errors := errs } (some ev)).2 =
      some { ev with
        hotspot := { x := c.toInt x, y := c.toInt y, w := c.toInt w, h := c.toInt h }
        center := { x := FVal.mid (c.toInt x) (c.toInt w), y := FVal.mid (c.toInt y) (c.toInt h) } } ∧
    (loadEvent c { key := "hotspot", vals := ["location"], errors := errs } (some ev)).2 =
      some { ev with
        hotspot := ev.location
        center := { x := FVal.mid ev.location.x ev.location.w,
                    y := FVal.mid ev.location.y ev.location.h } } ∧
    (loadEvent c { key := "location", vals := [x, y, w, h], errors := errs } (some ev)).2 =
      some { ev with
        location := { x := c.toInt x, y := c.toInt y, w := c.toInt w, h := c.toInt h }
        center :=
          if ev.center.x.eqNegOne = true ∧ ev.center.y.eqNegOne = true then
            { x := FVal.mid (c.toInt x) (c.toInt w), y := FVal.mid (c.toInt y) (c.toInt h) }
          else ev.center } ∧
    (loadEvent c { key := "location", vals := [x, y, w, h], errors := errs }
        (some Event.new)).2 =
      some { Event.new with
        location := { x := c.toInt x, y := c.toInt y, w := c.toInt w, h := c.toInt h }
        center := { x := FVal.mid (c.toInt x) (c.toInt w), y := FVal.mid (c.toInt y) (c.toInt h) } } ∧
    (∀ (lines : List FileParser) (vals : List String), ∃ ev1,
      loadEvents c (lines ++ [{ key := "hotspot", vals := vals, errors := errs }]) (some ev) =
        some ev1 ∧
      ev1.center = { x := FVal.mid ev1.hotspot.x ev1.hotspot.w,
                     y := FVal.mid ev1.hotspot.y ev1.hotspot.h }) := by
  have hne := rect_val_ne_location x y w h
  have hloc : String.intercalate "," ["location"] = "location" := rfl
  refine ⟨?_, ?_, ?_, ?_, ?_⟩
  · simp [loadEvent, FileParser.val, hne, readRect, FileParser.nextValue, rectCenter]
  · simp [loadEvent, FileParser.val, hloc, rectCenter]
  · by_cases hc : ev.center.x.eqNegOne = true ∧ ev.center.y.eqNegOne = true
    · simp [loadEvent, readRect, FileParser.nextValue, rectCenter, hc]
    · have hc1 : ¬ (ev.center.x.eqNegOne = true ∧ ev.center.y.eqNegOne = true) := hc
      simp only [loadEvent, readRect, FileParser.nextValue, rectCenter]
      simp [hc1]
  · simp [loadEvent, readRect, FileParser.nextValue, rectCenter, Event.new, FVal.eqNegOne]
  · intro lines vals
    obtain ⟨ev0, h0⟩ := loadEvents_some c lines ev
    rw [loadEvents_append, h0]
    by_cases hv : String.intercalate "," vals = "location"
    · refine ⟨{ ev0 with hotspot := ev0.location, center := rectCenter ev0.location }, ?_, rfl⟩
      simp [loadEvents, loadEvent, FileParser.val, hv]
    · refine ⟨{ ev0 with
          hotspot := (readRect c { key := "hotspot", vals := vals, errors := errs }).1
          center := rectCenter (readRect c { key := "hotspot", vals := vals, errors := errs }).1 },
        ?_, rfl⟩
      simp [loadEvents, loadEvent, FileParser.val, hv]

/-- C21 fails as stated: on a fresh event, a hotspot key with the rectangle
(1, 2, 4, 6) followed by a location key with the rectangle (10, 10, 2, 2)
leaves center at the midpoint of the hotspot, not at the midpoint of the
rectangle of the last key. -/
theorem center_not_last_area :
    (loadEvents sampleLoad hotspotThenLocation (some Event.new)).map (fun e => e.center) =
      some { x := FVal.mid 1 4, y := FVal.mid 2 6 } ∧
    (loadEvents sampleLoad hotspotThenLocation (some Event.new)).map (fun e => e.location) =
      some { x := 10, y := 10, w := 2, h := 2 } ∧
    (loadEvents sampleLoad hotspotThenLocation (some Event.new)).map (fun e => e.center) ≠
      some { x := FVal.mid 10 2, y := FVal.mid 10 2 } := by
  decide

/-! ## Loader: unknown keys -/

theorem loadEvent_eventKey_components (c : LoadCollab) (infile : FileParser) (ev : Event)
    (hk : infile.key ∈ eventKeys) :
    ∃ ev1, (loadEvent c infile (some ev)).2 = some ev1 ∧ ev1.components = ev.components := by
  simp only [eventKeys, List.mem_cons, List.mem_singleton, List.not_mem_nil, or_false] at hk
  unfold loadEvent
  simp only
  rcases hk with hk | hk | hk | hk | hk | hk <;> rw [hk] <;> simp
  · split_ifs <;> exact ⟨_, rfl, rfl⟩
  · split_ifs <;> exact ⟨_, rfl, rfl⟩
  · split_ifs <;> exact ⟨_, rfl, rfl⟩

/-- C22: for a key that is neither one of the six event-level keys nor a key
loadEventComponent recognizes, loadEvent appends exactly one component, a fresh
one with tag EC_NONE, reports one error through the cursor, consumes no value
and changes nothing else of the event; an event-level key never changes the
component list. -/
theorem unknown_key_appends_none (c : LoadCollab) (infile : FileParser) (ev : Event)
    (hev : infile.key ∉ eventKeys) (hcomp : infile.key ∉ componentKeys) :
    loadEvent c infile (some ev) =
      ({ infile with errors := infile.errors ++
          ["EventManager: '" ++ infile.key ++ "' is not a valid key."] },
        some { ev with components := ev.components ++
          [{ type := EC_NONE, s := "", x := 0, y := 0, z := 0, a := 0, b := 0 }] }) ∧
    (∀ (f : FileParser), f.key ∈ eventKeys →
      ∃ ev1, (loadEvent c f (some ev)).2 = some ev1 ∧ ev1.components = ev.components) := by
  refine ⟨?_, fun f hf => loadEvent_eventKey_components c f ev hf⟩
  simp only [eventKeys, componentKeys, List.mem_cons, List.mem_singleton, List.not_mem_nil,
    or_false, not_or] at hev hcomp
  simp [loadEvent, loadEventComponent, parseComponent, hev, hcomp, FileParser.error,
    Event_Component.new]

theorem unknown_key_appends_none_witness :
    "teleport" ∉ eventKeys ∧ "teleport" ∉ componentKeys ∧
    loadEvent sampleLoad { key := "teleport", vals := ["1", "2"], errors := [] }
        (some plainEvent) =
      ({ key := "teleport", vals := ["1", "2"],
         errors := ["EventManager: 'teleport' is not a valid key."] },
        some { plainEvent with components := plainEvent.components ++
          [{ type := EC_NONE, s := "", x := 0, y := 0, z := 0, a := 0, b := 0 }] }) :=
  ⟨by decide, by decide,
    (unknown_key_appends_none sampleLoad
      { key := "teleport", vals := ["1", "2"], errors := [] } plainEvent
      (by decide) (by decide)).1⟩

/-! ## Deleting components: what is kept -/

/-- Where the loop of deleteAllComponents ends inside the vector, the
components with another tag are all kept, in order and unchanged. -/
theorem deleteFrom_keeps_others (ty : EVENT_COMPONENT_TYPE) :
    ∀ (l l1 : List Event_Component), deleteFrom ty l = some l1 →
      l1.filter (fun ec => decide (ec.type ≠ ty)) = l.filter (fun ec => decide (ec.type ≠ ty))
  | [], l1, h => by
    simp [deleteFrom] at h; subst h; rfl
  | [a], l1, h => by
    unfold deleteFrom at h
    split at h
    · exact absurd h (by simp)
    · simp at h; subst h; rfl
  | a :: b :: rest, l1, h => by
    unfold deleteFrom at h
    by_cases hty : a.type = ty
    · rw [if_pos hty] at h
      cases hr : deleteFrom ty rest with
      | none => rw [hr] at h; exact absurd h (by simp)
      | some l2 =>
        rw [hr] at h
        simp only [Option.map_some', Option.some.injEq] at h
        subst h
        have ih := deleteFrom_keeps_others ty rest l2 hr
        simp only [List.filter_cons, ih]
        simp [hty]
    · rw [if_neg hty] at h
      cases hr : deleteFrom ty (b :: rest) with
      | none => rw [hr] at h; exact absurd h (by simp)
      | some l2 =>
        rw [hr] at h
        simp only [Option.map_some', Option.some.injEq] at h
        subst h
        have ih := deleteFrom_keeps_others ty (b :: rest) l2 hr
        simp only [List.filter_cons] at ih ⊢
        rw [ih]

/-- C23 fails on the code: on the list [msg c, tooltip a],
deleteAllComponents(EC_TOOLTIP) erases the last component and then increments
its iterator past the end of the vector, so the call has no defined result and
the list after the call is not the list before restricted to the other tags. -/
theorem deleteAllComponents_past_end :
    tooltipLast.deleteAllComponents EC_TOOLTIP = none ∧
    tooltipLast.components.filter (fun ec => decide (ec.type ≠ EC_TOOLTIP)) =
      [{ Event_Component.new with type := EC_MSG, s := "c" }] ∧
    ¬ ∃ ev1, tooltipLast.deleteAllComponents EC_TOOLTIP = some ev1 ∧
      ev1.components.filter (fun ec => decide (ec.type ≠ EC_TOOLTIP)) =
        tooltipLast.components.filter (fun ec => decide (ec.type ≠ EC_TOOLTIP)) := by
  refine ⟨by decide, by decide, ?_⟩
  rintro ⟨ev1, h, _⟩
  have hn : tooltipLast.deleteAllComponents EC_TOOLTIP = none := by decide
  rw [hn] at h
  exact absurd h (by simp)

/-! ## Loader: where the expansion of a variadic key stops -/

theorem repeatOne_stop (fill : String → Event_Component) (ts : List (List String))
    (junk : List String) (h : ∀ t ∈ ts, t.length = 1 ∧ t.head? ≠ some "") :
    repeatOne fill (ts.flatten ++ "" :: junk) = (ts.map (fun t => fill (t.getD 0 "")), junk) := by
  induction ts with
  | nil => simp [repeatOne]
  | cons t ts ih =>
    have ht := h t (List.mem_cons_self t ts)
    have hts := ih (fun u hu => h u (List.mem_cons_of_mem t hu))
    obtain ⟨hlen, hhead⟩ := ht
    match t, hlen with
    | [v], _ =>
      have hv : v ≠ "" := by simpa using hhead
      simp [repeatOne, hv, hts]

theorem repeatMapmod_stop (c : LoadCollab) (ts : List (List String)) (junk : List String)
    (h : ∀ t ∈ ts, VariadicKey.wellFormed .mapmod t) :
    (repeatMapmod c (ts.flatten ++ "" :: junk)).1 =
      ts.map (VariadicKey.component c.toInt .mapmod) := by
  induction ts with
  | nil =>
    match junk with
    | [] => simp [repeatMapmod]
    | [_] => simp [repeatMapmod]
    | [_, _] => simp [repeatMapmod]
    | _ :: _ :: _ :: _ => simp [repeatMapmod]
  | cons t ts ih =>
    have ht := h t (List.mem_cons_self t ts)
    have hts := ih (fun u hu => h u (List.mem_cons_of_mem t hu))
    obtain ⟨hlen, hhead⟩ := ht
    match t, hlen with
    | [s, x, y, z], _ =>
      have hs : s ≠ "" := by simpa using hhead
      simp [repeatMapmod, hs, hts, VariadicKey.component, mapmodComponent]

theorem repeatSpawn_stop (c : LoadCollab) (ts : List (List String)) (junk : List String)
    (h : ∀ t ∈ ts, VariadicKey.wellFormed .spawn t) :
    (repeatSpawn c (ts.flatten ++ "" :: junk)).1 =
      ts.map (VariadicKey.component c.toInt .spawn) := by
  induction ts with
  | nil =>
    match junk with
    | [] => simp [repeatSpawn]
    | [_] => simp [repeatSpawn]
    | _ :: _ :: _ => simp [repeatSpawn]
  | cons t ts ih =>
    have ht := h t (List.mem_cons_self t ts)
    have hts := ih (fun u hu => h u (List.mem_cons_of_mem t hu))
    obtain ⟨hlen, hhead⟩ := ht
    match t, hlen with
    | [s, x, y], _ =>
      have hs : s ≠ "" := by simpa using hhead
      simp [repeatSpawn, hs, hts, VariadicKey.component, spawnComponent]

/-- C24: loading a variadic key on an event target, the first tuple always
gives one component; after it one more component is appended for each tuple
whose leading field is not empty, up to the first empty value read where a
leading field is expected; every value after that one is ignored.  The number
of components appended is one plus the number of those tuples. -/
theorem variadic_key_stops (c : LoadCollab) (k : VariadicKey) (t0 : List String)
    (tuples : List (List String)) (junk errs : List String) (ev : Event)
    (ht0 : t0.length = k.arity) (hwf : ∀ t ∈ tuples, k.wellFormed t) :
    (loadEvent c
        { key := k.name, vals := t0 ++ tuples.flatten ++ "" :: junk, errors := errs }
        (some ev)).2 =
      some { ev with components :=
        ev.components ++ (k.component c.toInt t0 :: tuples.map (k.component c.toInt)) } ∧
    (k.component c.toInt t0 :: tuples.map (k.component c.toInt)).length =
      1 + tuples.length := by
  refine ⟨?_, by simp; omega⟩
  have hentry : ∀ vals : List String,
      (loadEvent c { key := k.name, vals := vals, errors := errs } (some ev)).2 =
      (loadEventComponent c { key := k.name, vals := vals, errors := errs }
        (some ev) none).2.1 := by
    intro vals
    cases k <;> simp [loadEvent, VariadicKey.name]
  rw [hentry]
  cases k
  case mapmod =>
    match t0, ht0 with
    | [s, x, y, z], _ =>
      simp [loadEventComponent, parseComponent, VariadicKey.name, FileParser.nextValue,
        repeatMapmod_stop c tuples junk hwf, VariadicKey.component, Event_Component.new]
  case spawn =>
    match t0, ht0 with
    | [s, x, y], _ =>
      simp [loadEventComponent, parseComponent, VariadicKey.name, FileParser.nextValue,
        repeatSpawn_stop c tuples junk hwf, VariadicKey.component, Event_Component.new]
  all_goals
    match t0, ht0 with
    | [v], _ =>
      simp [loadEventComponent, parseComponent, parseRepeating, VariadicKey.name,
        FileParser.nextValue, repeatOne_stop _ tuples junk hwf, VariadicKey.component,
        VariadicKey.tag, Event_Component.new]

theorem variadic_key_stops_witness :
    (loadEvent sampleLoad { key := "requires_status", vals := ["a", "", "b"], errors := [] }
        (some Event.new)).2 =
      some { Event.new with components :=
        [{ Event_Component.new with type := EC_REQUIRES_STATUS, s := "a" }] } :=
  (variadic_key_stops sampleLoad VariadicKey.requires_status ["a"] [] ["b"] [] Event.new
    (by decide) (by decide)).1

end Flare
